import Mathlib

/-!
The request pipeline and the key commands of go-deviceserver-client.

A shallow embedding of `deviceserver.go` (`Client.Authorize`, `Client.Get`,
`Client.Post`, `Client.CreateAccessKey`) and of the `delete-key` action of
`cmd/ds-cli/keys.go`.

Effects are made explicit by state passing.  The collaborators that live
outside the two source files (the clock, `url.Parse`, the JWT signer, the
HTTP transport, `json.Unmarshal`) are fields of a `World` record or of a
`Target`, so the results hold for all of their behaviours, and a concrete
`World` can be evaluated.
-/

namespace DeviceServer

/-! ## Errors -/

/-- A Go `error` value, distinguished by where it was built.
`ext` is an error handed back by a collaborator outside the repository
(`net/http`, `net/url`, `io/ioutil`, `encoding/json`, the signer), carrying its
message; `errorString` is a value built in this repository with `fmt.Errorf`
or `errors.New`; `missingRelation` is the error of `Links.GetLink`. -/
inductive GoError where
  | ext (msg : String)
  | errorString (msg : String)
  | missingRelation (rel : String)
  deriving DecidableEq, Repr

/-! ## Time -/

/-- Go `time.Duration`: a count of nanoseconds. -/
abbrev Duration := Int

/-- Go `time.Second`. -/
def Second : Duration := 1000000000

/-- Go `time.Minute`. -/
def Minute : Duration := 60 * Second

/-- Two's-complement wrap of an integer into the `int64` range. -/
def int64 (x : Int) : Int := (x + 2 ^ 63) % 2 ^ 64 - 2 ^ 63

/-- Seconds between January 1 of year 1 and the Unix epoch (`unixToInternal`). -/
def unixToInternal : Int := (1969 * 365 + 1969 / 4 - 1969 / 100 + 1969 / 400) * 86400

/-- Go `time.Time`: `sec` counts seconds since January 1 of year 1 (an `int64`),
`nsec` is the nanosecond offset within the second, in `[0, 999999999]`. -/
structure Time where
  sec : Int
  nsec : Int
  deriving DecidableEq, Repr

/-- Go `Time.Add`: the seconds are `int64` arithmetic, the nanoseconds carry. -/
def Time.Add (t : Time) (d : Duration) : Time :=
  let sec := int64 (t.sec + int64 (Int.tdiv d 1000000000))
  let nsec := t.nsec + Int.tmod d 1000000000
  if nsec ≥ 1000000000 then
    { sec := int64 (sec + 1), nsec := nsec - 1000000000 }
  else if nsec < 0 then
    { sec := int64 (sec - 1), nsec := nsec + 1000000000 }
  else
    { sec := sec, nsec := nsec }

/-- Go `Time.Unix`: seconds since the Unix epoch. -/
def Time.Unix (t : Time) : Int := int64 (t.sec - unixToInternal)

/-! ## HTTP headers -/

/-- The bytes allowed in a header field name (`validHeaderFieldByte` of
`net/textproto`): the token characters of RFC 7230. -/
def validHeaderFieldByte (c : Char) : Bool :=
  c.isAlphanum ||
    [ '!', '#', '$', '%', '&', Char.ofNat 39, '*', '+', '-', '.', '^', '_',
      Char.ofNat 96, '|', '~' ].contains c

/-- The rewriting loop of `canonicalMIMEHeaderKey`: upper-case the first letter
and every letter after a hyphen, lower-case the others. -/
def canonicalLoop : Bool → List Char → List Char
  | _, [] => []
  | upper, c :: cs =>
    let c1 :=
      if upper && c.isLower then c.toUpper
      else if !upper && c.isUpper then c.toLower
      else c
    c1 :: canonicalLoop (c1 == '-') cs

/-- Go `textproto.CanonicalMIMEHeaderKey`: a key holding a byte that is not
a valid header field byte is returned unchanged, every other key is put in
canonical case. -/
def CanonicalMIMEHeaderKey (s : String) : String :=
  if s.data.all validHeaderFieldByte then String.mk (canonicalLoop true s.data) else s

/-- Go `http.Header`, a `map[string][]string`, as an association list with
at most one entry for each key. -/
abbrev Header := List (String × List String)

/-- Go `Header.Set`: the key is canonicalised and its values are replaced
by the single value given. -/
def Header.Set (h : Header) (key value : String) : Header :=
  (CanonicalMIMEHeaderKey key, [value]) ::
    h.filter (fun e => e.1 != CanonicalMIMEHeaderKey key)

/-- The map lookup `h[key]` of a header; `[]` stands for an absent key. -/
def Header.values (h : Header) (key : String) : List String :=
  (h.lookup key).getD []

/-! ## Requests, responses and collaborators -/

/-- The fields of `url.URL` that the program reads. -/
structure URL where
  Scheme : String
  Host : String
  deriving DecidableEq, Repr

/-- Go `http.Request`, as built by `http.NewRequest`.  `URL` is the string
the request URL was parsed from; `Body` is the content of the body reader,
`none` for the `nil` reader. -/
structure Request where
  Method : String
  URL : String
  Header : Header
  Body : Option String
  deriving DecidableEq, Repr

/-- Go `http.Response`.  `Body` is the outcome of `ioutil.ReadAll(resp.Body)`:
the whole content, or the read error. -/
structure Response where
  Status : String
  StatusCode : Int
  Body : Except String String

/-- The claim signed for every request (`OrgClaim`). -/
structure OrgClaim where
  OrgID : Int
  Exp : Int
  deriving DecidableEq, Repr

/-- The collaborators of the client.  `clock n` is the `n`-th reading of
`time.Now()`; `urlParse` is `url.Parse`; `MarshallSignSerialize` is the method
of the `JwtSigner` held by the client; `Do prior req` is `http.Client.Do` on
`req` when `prior` are the requests handed to it before. -/
structure World where
  clock : Nat → Time
  urlParse : String → Except String URL
  MarshallSignSerialize : OrgClaim → Except String String
  Do : List Request → Request → Except String Response

/-- The address of a Go variable. -/
abbrev Ptr := Nat

/-- A Go type `α` used behind the `result interface{}` parameter.
`unmarshal body v` is `json.Unmarshal(body, &v)`: the error, if any, and the
value left in `v`; `box` gives the content of a variable of type `α` as a value
of the type `κ` of all the variables reached through `interface{}` pointers. -/
structure Target (α κ : Type) where
  unmarshal : String → α → Option String × α
  box : α → κ

/-! ## The response cache (`patrickmn/go-cache`) -/

/-- A cached item: the stored object and the lifetime granted at the write
(the item expires that long after the clock reading of the write).  The
client stores the `result` pointers of its callers, so its items are of type
`Item Ptr`. -/
structure Item (κ : Type) where
  Object : κ
  Expiration : Duration
  deriving DecidableEq, Repr

/-- The constant `cache.DefaultExpiration`. -/
def DefaultExpiration : Duration := 0

/-- The cache of the client: the default lifetime given to `cache.New`
and the items by key. -/
structure Cache (κ : Type) where
  defaultExpiration : Duration
  items : List (String × Item κ)
  deriving DecidableEq, Repr

/-- The method `Cache.Set`: stores `x` under `k`, replacing an earlier item;
`DefaultExpiration` stands for the default lifetime of the cache. -/
def Cache.Set {κ : Type} (c : Cache κ) (k : String) (x : κ) (d : Duration) : Cache κ :=
  let d1 := if d = DefaultExpiration then c.defaultExpiration else d
  { c with items := (k, { Object := x, Expiration := d1 }) :: c.items.filter (fun e => e.1 != k) }

/-- An argument of a log format. -/
inductive LogArg where
  | err (e : GoError)
  | str (s : String)
  | int (i : Int)
  deriving DecidableEq, Repr

/-- A call of `d.log.Request(req, format, args...)` or `d.log.Error(format, args...)`. -/
inductive LogEntry where
  | request (req : Option Request) (format : String) (args : List LogArg)
  | error (format : String) (args : List LogArg)
  deriving DecidableEq, Repr

/-! ## Client and state -/

/-- The fields of `Client` that are plain data.  The two header maps are
listed in the order a `range` loop visits them. -/
structure Client where
  baseUrl : String
  authGetJson : List (String × String)
  authPostJson : List (String × String)
  deriving DecidableEq, Repr

/-- What a call can change or consume: the number of clock readings taken,
the claims handed to the signer, the requests handed to `http.Client.Do`, the
cache and the log, each in order of occurrence, and the memory.  The cache
holds pointers; `heap p` is the content of the variable at the address `p`
(`none` before anything was stored there), and `next` is the address the next
new variable gets. -/
structure State (κ : Type) where
  ticks : Nat
  signed : List OrgClaim
  sent : List Request
  cache : Cache Ptr
  log : List LogEntry
  heap : Ptr → Option κ
  next : Ptr

/-- Appends a `d.log.Request` call to the log. -/
def State.logRequest {κ : Type} (s : State κ) (req : Option Request) (format : String)
    (args : List LogArg) : State κ :=
  { s with log := s.log ++ [LogEntry.request req format args] }

/-- Appends a `d.log.Error` call to the log. -/
def State.logError {κ : Type} (s : State κ) (format : String) (args : List LogArg) : State κ :=
  { s with log := s.log ++ [LogEntry.error format args] }

/-- A write through the pointer `p`: the variable at `p` now holds `v`. -/
def State.store {κ : Type} (s : State κ) (p : Ptr) (v : κ) : State κ :=
  { s with heap := fun q => if q = p then some v else s.heap q }

/-- A variable declaration `var x T`: the new variable is at the address
`s.next` and holds `v`, the zero value of its type. -/
def State.newVar {κ : Type} (s : State κ) (v : κ) : State κ :=
  { s with heap := fun q => if q = s.next then some v else s.heap q, next := s.next + 1 }

/-- Go `http.NewRequest` for the methods `GET` and `POST`: it fails exactly when
the URL does not parse, and otherwise gives a request with an empty header. -/
def NewRequest (w : World) (method url : String) (body : Option String) :
    Except GoError Request :=
  match w.urlParse url with
  | .error err => .error (GoError.ext err)
  | .ok _ => .ok { Method := method, URL := url, Header := [], Body := body }

/-- The loop `for n, v := range headers { req.Header.Set(n, v) }`. -/
def setHeaders (req : Request) (headers : List (String × String)) : Request :=
  headers.foldl (fun r nv => { r with Header := r.Header.Set nv.1 nv.2 }) req

/-- The claim built by `Authorize` at the clock reading `now`. -/
def orgClaimAt (now : Time) : OrgClaim :=
  { OrgID := 0, Exp := (now.Add (60 * Minute)).Unix }

/-- The method `Client.Authorize`: builds the claim from the current time, signs it and
sets the `Authorization` header of the request. -/
def Client.Authorize {κ : Type} (w : World) (_d : Client) (req : Request) (s : State κ) :
    Option GoError × Request × State κ :=
  let orgClaim := orgClaimAt (w.clock s.ticks)
  let s1 := { s with ticks := s.ticks + 1, signed := s.signed ++ [orgClaim] }
  match w.MarshallSignSerialize orgClaim with
  | .error err => (some (GoError.ext err), req, s1)
  | .ok serialized =>
    (none, { req with Header := req.Header.Set "Authorization" ("Bearer " ++ serialized) }, s1)

/-- The method `Client.Get`: builds the `GET` request, merges the caller's headers,
authorizes, sends, checks the status, reads and decodes the body, and on
success stores the pointer `result` in the cache under the URL.  The argument
`p` is the address the pointer `result` holds and `result` is the content of
the variable at that address when the call starts; `json.Unmarshal` writes
through the pointer, which the state records at `p`.  The outcome is the
returned error (`none` for `nil`), the value left behind `result`, and the
new state. -/
def Client.Get {α κ : Type} (w : World) (d : Client) (t : Target α κ) (url : String)
    (headers : List (String × String)) (p : Ptr) (result : α) (s : State κ) :
    Option GoError × α × State κ :=
  match NewRequest w "GET" url none with
  | .error err => (some err, result, s.logRequest none "NewRequest(): %s" [LogArg.err err])
  | .ok req0 =>
    match d.Authorize w (setHeaders req0 headers) s with
    | (some err, req, s1) =>
      (some err, result, s1.logRequest (some req) "Authorize(): %s" [LogArg.err err])
    | (none, req, s1) =>
      let s2 := { s1 with sent := s1.sent ++ [req] }
      match w.Do s1.sent req with
      | .error err =>
        (some (GoError.ext err), result,
          s2.logRequest (some req) "Do(): %s" [LogArg.err (GoError.ext err)])
      | .ok resp =>
        if resp.StatusCode > 400 then
          (some (GoError.errorString ("http status: " ++ toString resp.StatusCode)), result,
            s2.logRequest (some req) "status: %s(%d)"
              [LogArg.str resp.Status, LogArg.int resp.StatusCode])
        else
          match resp.Body with
          | .error err =>
            (some (GoError.ext err), result,
              s2.logRequest (some req) "ReadAll(): %s" [LogArg.err (GoError.ext err)])
          | .ok body =>
            match t.unmarshal body result with
            | (some err, result1) =>
              (some (GoError.ext err), result1,
                (s2.store p (t.box result1)).logRequest (some req) "Unmarshal(): %s"
                  [LogArg.err (GoError.ext err)])
            | (none, result1) =>
              let s3 := (s2.store p (t.box result1)).logRequest (some req) "Get(): OK" []
              (none, result1, { s3 with cache := s3.cache.Set url p DefaultExpiration })

/-- The method `Client.Post`: as `Get` with method `POST` and a body, and without the
cache write. -/
def Client.Post {α κ : Type} (w : World) (d : Client) (t : Target α κ) (url : String)
    (headers : List (String × String)) (postbody : String) (p : Ptr) (result : α)
    (s : State κ) : Option GoError × α × State κ :=
  match NewRequest w "POST" url (some postbody) with
  | .error err => (some err, result, s.logRequest none "NewRequest(): %s" [LogArg.err err])
  | .ok req0 =>
    match d.Authorize w (setHeaders req0 headers) s with
    | (some err, req, s1) =>
      (some err, result, s1.logRequest (some req) "Authorize(): %s" [LogArg.err err])
    | (none, req, s1) =>
      let s2 := { s1 with sent := s1.sent ++ [req] }
      match w.Do s1.sent req with
      | .error err =>
        (some (GoError.ext err), result,
          s2.logRequest (some req) "Do(): %s" [LogArg.err (GoError.ext err)])
      | .ok resp =>
        if resp.StatusCode > 400 then
          (some (GoError.errorString ("http status: " ++ toString resp.StatusCode)), result,
            s2.logRequest (some req) "status: %s(%d)"
              [LogArg.str resp.Status, LogArg.int resp.StatusCode])
        else
          match resp.Body with
          | .error err =>
            (some (GoError.ext err), result,
              s2.logRequest (some req) "ReadAll(): %s" [LogArg.err (GoError.ext err)])
          | .ok body =>
            match t.unmarshal body result with
            | (some err, result1) =>
              (some (GoError.ext err), result1,
                (s2.store p (t.box result1)).logRequest (some req) "Unmarshal(): %s"
                  [LogArg.err (GoError.ext err)])
            | (none, result1) =>
              (none, result1, (s2.store p (t.box result1)).logRequest (some req) "Post(): OK" [])

/-! ## Resources and `CreateAccessKey` -/

/-- A link descriptor of a hypermedia document; `Href` is the field read by
the program. -/
structure Link where
  Href : String
  deriving DecidableEq, Repr

/-- Modelled from the spec: the `hateoas` package of the repository, which
declares `Links`, is not among the source files.  A link registry maps a
relation name to a link descriptor; names are matched verbatim. -/
abbrev Links := List (String × Link)

/-- Modelled from the spec: `Links.GetLink` of the absent `hateoas` package.
It returns the link stored for the relation, and the missing-relation error
when the relation is absent. -/
def Links.GetLink (ls : Links) (rel : String) : Except GoError Link :=
  match ls.lookup rel with
  | some link => .ok link
  | none => .error (GoError.missingRelation rel)

/-- The entry point resource; only its links are read by the program. -/
structure EntryPoint where
  Links : Links
  deriving DecidableEq, Repr

/-- The access key resource, with the fields the commands read. -/
structure AccessKey where
  Name : String
  Key : String
  Links : Links
  deriving DecidableEq, Repr

/-- The zero value of `EntryPoint` (`var entry EntryPoint`). -/
def EntryPoint.zero : EntryPoint := { Links := [] }

/-- The zero value of `AccessKey` (`var key AccessKey`). -/
def AccessKey.zero : AccessKey := { Name := "", Key := "", Links := [] }

/-- The two result types `CreateAccessKey` decodes into. -/
structure Codec (κ : Type) where
  entry : Target EntryPoint κ
  key : Target AccessKey κ

/-- The body `fmt.Sprintf` builds from the format string of `CreateAccessKey`:
the verb `%s` inserts the name as it is. -/
def nameBody (name : String) : String :=
  "\x7b\"Name\":\"" ++ name ++ "\"\x7d"

/-- The method `Client.CreateAccessKey`: fetches the entry point, resolves the
`accesskeys` relation and posts the name to it.  The local variables `entry`
and `key` are new variables, at the addresses `s.next` and `s1.next`.  The
result is the returned pair (content of the key pointer, error) and the new
state. -/
def Client.CreateAccessKey {κ : Type} (w : World) (d : Client) (c : Codec κ) (name : String)
    (s : State κ) : (Option AccessKey × Option GoError) × State κ :=
  match d.Get w c.entry d.baseUrl d.authGetJson s.next EntryPoint.zero
      (s.newVar (c.entry.box EntryPoint.zero)) with
  | (some err, _, s1) => ((none, some err), s1.logError "Get(): %s" [LogArg.err err])
  | (none, entry, s1) =>
    match entry.Links.GetLink "accesskeys" with
    | .error err => ((none, some err), s1.logError "GetLink(): %s" [LogArg.err err])
    | .ok accesskeys =>
      match d.Post w c.key accesskeys.Href d.authPostJson (nameBody name) s1.next AccessKey.zero
          (s1.newVar (c.key.box AccessKey.zero)) with
      | (_, key, s2) => ((some key, none), s2)

/-! ## The `delete-key` command -/

/-- What the `delete-key` action does after its checks, in order. -/
inductive CliEvent where
  | create (entryURL : String)
  | readCredentials
  | authenticate (credentials : String)
  | delete (self : String)
  | close
  deriving DecidableEq, Repr

/-- The collaborators of the command: `url.Parse`, client creation,
`ReadCredentials`, and the `Authenticate` and `Delete` methods of the client,
each giving its error or its result. -/
structure CliWorld where
  urlParse : String → Except String URL
  Create : String → Except String Unit
  ReadCredentials : Except String String
  Authenticate : String → Except String Unit
  Delete : String → Except String Unit

/-- The `Action` of the `delete-key` command on the argument `self`, with
the package variable `deviceserverURL`.  The result is the returned error and
the events appended to `trace`; the deferred `d.Close()` runs on every return
after the client exists. -/
def deleteKey.Action (w : CliWorld) (deviceserverURL self : String) (trace : List CliEvent) :
    Option GoError × List CliEvent :=
  match w.urlParse self with
  | .error err => (some (GoError.ext err), trace)
  | .ok u =>
    match w.urlParse deviceserverURL with
    | .error err => (some (GoError.ext err), trace)
    | .ok du =>
      if u.Scheme != "http" && u.Scheme != "https" then
        (some (GoError.errorString "Invalid scheme for self link"), trace)
      else if u.Host != du.Host then
        (some (GoError.errorString "self link is not for this deviceserver"), trace)
      else
        let t1 := trace ++ [CliEvent.create deviceserverURL]
        match w.Create deviceserverURL with
        | .error err => (some (GoError.ext err), t1)
        | .ok _ =>
          let t2 := t1 ++ [CliEvent.readCredentials]
          match w.ReadCredentials with
          | .error err => (some (GoError.ext err), t2 ++ [CliEvent.close])
          | .ok credentials =>
            let t3 := t2 ++ [CliEvent.authenticate credentials]
            match w.Authenticate credentials with
            | .error err => (some (GoError.ext err), t3 ++ [CliEvent.close])
            | .ok _ =>
              let t4 := t3 ++ [CliEvent.delete self]
              match w.Delete self with
              | .error err => (some (GoError.ext err), t4 ++ [CliEvent.close])
              | .ok _ => (none, t4 ++ [CliEvent.close])

/-! ## A concrete world

A small server used to evaluate the definitions: the entry point document
lists the relation `accesskeys` at `/keys`. -/

/-- The values the demo cache stores. -/
inductive Boxed where
  | entry (e : EntryPoint)
  | key (k : AccessKey)
  deriving DecidableEq, Repr

/-- The body of the demo entry point. -/
def demoEntryDoc : String := "\x7b\"Links\":\x7b\"accesskeys\":\x7b\"href\":\"/keys\"\x7d\x7d\x7d"

/-- The body of the demo access key. -/
def demoKeyDoc : String := "\x7b\"Name\":\"foo\",\"Key\":\"k1\"\x7d"

/-- A decoder that knows the two demo documents and the empty object, and
rejects every other body. -/
def demoCodec : Codec Boxed where
  entry :=
    { unmarshal := fun body v =>
        if body = demoEntryDoc then (none, { Links := [("accesskeys", { Href := "/keys" })] })
        else if body = "\x7b\x7d" then (none, v)
        else (some "invalid character", v)
      box := Boxed.entry }
  key :=
    { unmarshal := fun body v =>
        if body = demoKeyDoc then (none, { Name := "foo", Key := "k1", Links := [] })
        else if body = "\x7b\x7d" then (none, v)
        else (some "invalid character", v)
      box := Boxed.key }

/-- A world whose server answers every `GET` with `getResp` and every other
request with `postResp`, whose signer gives the token `jwt` (or fails when
`signOk` is false), and whose clock starts in November 2023. -/
def demoWorld (getResp postResp : Except String Response) (signOk : Bool) : World where
  clock := fun n => { sec := unixToInternal + 1700000000 + n, nsec := 0 }
  urlParse := fun u =>
    if u = "" then .error "empty url" else .ok { Scheme := "http", Host := "ds.example" }
  MarshallSignSerialize := fun _ => if signOk then .ok "jwt" else .error "square/go-jose: bad key"
  Do := fun _ req => if req.Method = "GET" then getResp else postResp

/-- A response with the given status code and body. -/
def demoResp (code : Int) (body : String) : Except String Response :=
  .ok { Status := "", StatusCode := code, Body := .ok body }

/-- The client of the demo, as `Create` fills it. -/
def demoClient : Client :=
  { baseUrl := "/"
    authGetJson := [("Accept", "application/json")]
    authPostJson := [("Accept", "application/json"), ("Content-Type", "application/json")] }

/-- The state of a fresh client: the cache made by `cache.New` with a default
lifetime of 120 seconds, and no variable yet. -/
def demoState : State Boxed :=
  { ticks := 0, signed := [], sent := [], cache := { defaultExpiration := 120 * Second, items := [] },
    log := [], heap := fun _ => none, next := 0 }

/-- The collaborators of the `delete-key` demo: three URLs parse, every
other string is rejected, and every later step succeeds. -/
def demoCli : CliWorld where
  urlParse := fun u =>
    if u = "http://ds.example" then .ok { Scheme := "http", Host := "ds.example" }
    else if u = "http://ds.example/keys/1" then .ok { Scheme := "http", Host := "ds.example" }
    else if u = "http://other.example/keys/1" then .ok { Scheme := "http", Host := "other.example" }
    else if u = "ftp://ds.example/keys/1" then .ok { Scheme := "ftp", Host := "ds.example" }
    else .error "parse error"
  Create := fun _ => .ok ()
  ReadCredentials := .ok "credentials"
  Authenticate := fun _ => .ok ()
  Delete := fun _ => .ok ()

/-! ## Derived notions used in the statements -/

/-- The state `Authorize` leaves: one more clock reading taken and the claim
of that reading handed to the signer. -/
def authState {κ : Type} (w : World) (s : State κ) : State κ :=
  { s with ticks := s.ticks + 1, signed := s.signed ++ [orgClaimAt (w.clock s.ticks)] }

/-- The request `Get` and `Post` hand to `d.client.Do` when the signer gives
the token `tok`: the new request, after the header merge and `Authorize`. -/
def authRequest (method url : String) (headers : List (String × String)) (body : Option String)
    (tok : String) : Request :=
  let req := setHeaders { Method := method, URL := url, Header := [], Body := body } headers
  { req with Header := req.Header.Set "Authorization" ("Bearer " ++ tok) }

/-- The state after `d.client.Do` was called on `req`: `Authorize` has run and
the request is recorded as sent. -/
def sentState {κ : Type} (w : World) (s : State κ) (req : Request) : State κ :=
  { authState w s with sent := s.sent ++ [req] }

/-- The stage of `Get` and `Post` that follows the status check: `ioutil.ReadAll`
on the body, then `json.Unmarshal` into `result`.  It gives the error returned
and the value left behind `result`. -/
def readAndDecode {α κ : Type} (t : Target α κ) (resp : Response) (result : α) :
    Option GoError × α :=
  match resp.Body with
  | .error e => (some (GoError.ext e), result)
  | .ok body => ((t.unmarshal body result).1.map GoError.ext, (t.unmarshal body result).2)

/-! ## Lemmas on association lists, headers and the cache -/

theorem lookup_filter_key {β : Type} (l : List (String × β)) (k k1 : String) :
    (l.filter (fun e => e.1 != k)).lookup k1 = if k1 = k then none else l.lookup k1 := by
  induction l with
  | nil => simp
  | cons e l ih =>
    obtain ⟨a, b⟩ := e
    by_cases hak : a = k
    · subst hak
      by_cases hk : k1 = a
      · subst hk; simp [List.filter_cons, ih]
      · have hb : (k1 == a) = false := by simpa using hk
        simp [List.filter_cons, ih, hk, List.lookup_cons, hb]
    · by_cases hk : k1 = k
      · subst hk
        have hb : (a != k1) = true := by simpa using hak
        rw [List.filter_cons, if_pos hb, List.lookup_cons]
        have hb2 : (k1 == a) = false := by simpa using fun h : k1 = a => hak h.symm
        simp [hb2, ih]
      · have hb : (a != k) = true := by simpa using hak
        rw [List.filter_cons, if_pos hb, List.lookup_cons, List.lookup_cons, ih, if_neg hk, if_neg hk]

theorem Header.values_Set (h : Header) (key value k1 : String) :
    Header.values (Header.Set h key value) k1 =
      if k1 = CanonicalMIMEHeaderKey key then [value] else Header.values h k1 := by
  unfold Header.values Header.Set
  by_cases hk : k1 = CanonicalMIMEHeaderKey key
  · subst hk; simp [List.lookup_cons]
  · have hb : (k1 == CanonicalMIMEHeaderKey key) = false := by simpa using hk
    simp [List.lookup_cons, hk, lookup_filter_key, hb]

theorem Authorize_of_sign_error {κ : Type} (w : World) (d : Client) (req : Request)
    (s : State κ) (e : String)
    (hs : w.MarshallSignSerialize (orgClaimAt (w.clock s.ticks)) = .error e) :
    d.Authorize w req s = (some (GoError.ext e), req, authState w s) := by
  simp only [Client.Authorize, hs, authState]

theorem Authorize_of_sign_ok {κ : Type} (w : World) (d : Client) (req : Request)
    (s : State κ) (tok : String)
    (hs : w.MarshallSignSerialize (orgClaimAt (w.clock s.ticks)) = .ok tok) :
    d.Authorize w req s =
      (none, { req with Header := req.Header.Set "Authorization" ("Bearer " ++ tok) },
        authState w s) := by
  simp only [Client.Authorize, hs, authState]

theorem Get_of_parse_error {α κ : Type} (w : World) (d : Client) (t : Target α κ) (url : String)
    (headers : List (String × String)) (p : Ptr) (result : α) (s : State κ) (e : String)
    (hp : w.urlParse url = .error e) :
    d.Get w t url headers p result s =
      (some (GoError.ext e), result,
        s.logRequest none "NewRequest(): %s" [LogArg.err (GoError.ext e)]) := by
  simp only [Client.Get, NewRequest, hp]

theorem Get_of_sign_error {α κ : Type} (w : World) (d : Client) (t : Target α κ) (url : String)
    (headers : List (String × String)) (p : Ptr) (result : α) (s : State κ) (u : URL) (e : String)
    (hp : w.urlParse url = .ok u)
    (hs : w.MarshallSignSerialize (orgClaimAt (w.clock s.ticks)) = .error e) :
    d.Get w t url headers p result s =
      (some (GoError.ext e), result,
        (authState w s).logRequest
          (some (setHeaders { Method := "GET", URL := url, Header := [], Body := none } headers))
          "Authorize(): %s" [LogArg.err (GoError.ext e)]) := by
  simp only [Client.Get, NewRequest, hp, Authorize_of_sign_error w d _ s e hs]

theorem Get_of_do_error {α κ : Type} (w : World) (d : Client) (t : Target α κ) (url : String)
    (headers : List (String × String)) (p : Ptr) (result : α) (s : State κ) (u : URL) (tok e : String)
    (hp : w.urlParse url = .ok u)
    (hs : w.MarshallSignSerialize (orgClaimAt (w.clock s.ticks)) = .ok tok)
    (hd : w.Do s.sent (authRequest "GET" url headers none tok) = .error e) :
    d.Get w t url headers p result s =
      (some (GoError.ext e), result,
        (sentState w s (authRequest "GET" url headers none tok)).logRequest
          (some (authRequest "GET" url headers none tok)) "Do(): %s" [LogArg.err (GoError.ext e)]) := by
  simp only [authRequest, authState, sentState] at hd ⊢
  simp only [Client.Get, NewRequest, hp, Authorize_of_sign_ok w d _ s tok hs, authState, hd]

theorem Get_of_status {α κ : Type} (w : World) (d : Client) (t : Target α κ) (url : String)
    (headers : List (String × String)) (p : Ptr) (result : α) (s : State κ) (u : URL) (tok : String) (resp : Response)
    (hp : w.urlParse url = .ok u)
    (hs : w.MarshallSignSerialize (orgClaimAt (w.clock s.ticks)) = .ok tok)
    (hd : w.Do s.sent (authRequest "GET" url headers none tok) = .ok resp)
    (hc : resp.StatusCode > 400) :
    d.Get w t url headers p result s =
      (some (GoError.errorString ("http status: " ++ toString resp.StatusCode)), result,
        (sentState w s (authRequest "GET" url headers none tok)).logRequest
          (some (authRequest "GET" url headers none tok)) "status: %s(%d)"
          [LogArg.str resp.Status, LogArg.int resp.StatusCode]) := by
  simp only [authRequest, authState, sentState] at hd ⊢
  simp only [Client.Get, NewRequest, hp, Authorize_of_sign_ok w d _ s tok hs, authState, hd, if_pos hc]

theorem Get_of_read_error {α κ : Type} (w : World) (d : Client) (t : Target α κ) (url : String)
    (headers : List (String × String)) (p : Ptr) (result : α) (s : State κ) (u : URL) (tok : String) (resp : Response) (e : String)
    (hp : w.urlParse url = .ok u)
    (hs : w.MarshallSignSerialize (orgClaimAt (w.clock s.ticks)) = .ok tok)
    (hd : w.Do s.sent (authRequest "GET" url headers none tok) = .ok resp)
    (hc : ¬ resp.StatusCode > 400) (hb : resp.Body = .error e) :
    d.Get w t url headers p result s =
      (some (GoError.ext e), result,
        (sentState w s (authRequest "GET" url headers none tok)).logRequest
          (some (authRequest "GET" url headers none tok)) "ReadAll(): %s" [LogArg.err (GoError.ext e)]) := by
  simp only [authRequest, authState, sentState] at hd ⊢
  simp only [Client.Get, NewRequest, hp, Authorize_of_sign_ok w d _ s tok hs, authState, hd, if_neg hc, hb]

theorem Get_of_decode_error {α κ : Type} (w : World) (d : Client) (t : Target α κ) (url : String)
    (headers : List (String × String)) (p : Ptr) (result : α) (s : State κ) (u : URL) (tok : String) (resp : Response)
    (body e : String) (result1 : α)
    (hp : w.urlParse url = .ok u)
    (hs : w.MarshallSignSerialize (orgClaimAt (w.clock s.ticks)) = .ok tok)
    (hd : w.Do s.sent (authRequest "GET" url headers none tok) = .ok resp)
    (hc : ¬ resp.StatusCode > 400) (hb : resp.Body = .ok body)
    (hu : t.unmarshal body result = (some e, result1)) :
    d.Get w t url headers p result s =
      (some (GoError.ext e), result1,
        ((sentState w s (authRequest "GET" url headers none tok)).store p (t.box result1)).logRequest
          (some (authRequest "GET" url headers none tok)) "Unmarshal(): %s" [LogArg.err (GoError.ext e)]) := by
  simp only [authRequest, authState, sentState] at hd ⊢
  simp only [Client.Get, NewRequest, hp, Authorize_of_sign_ok w d _ s tok hs, authState, hd, if_neg hc, hb, hu, State.store]

theorem Get_of_decoded {α κ : Type} (w : World) (d : Client) (t : Target α κ) (url : String)
    (headers : List (String × String)) (p : Ptr) (result : α) (s : State κ) (u : URL) (tok : String) (resp : Response)
    (body : String) (result1 : α)
    (hp : w.urlParse url = .ok u)
    (hs : w.MarshallSignSerialize (orgClaimAt (w.clock s.ticks)) = .ok tok)
    (hd : w.Do s.sent (authRequest "GET" url headers none tok) = .ok resp)
    (hc : ¬ resp.StatusCode > 400) (hb : resp.Body = .ok body)
    (hu : t.unmarshal body result = (none, result1)) :
    d.Get w t url headers p result s =
      (none, result1,
        { ((sentState w s (authRequest "GET" url headers none tok)).store p (t.box result1)).logRequest
            (some (authRequest "GET" url headers none tok)) "Get(): OK" [] with
          cache := s.cache.Set url p DefaultExpiration }) := by
  simp only [authRequest, authState, sentState] at hd ⊢
  simp only [Client.Get, NewRequest, hp, Authorize_of_sign_ok w d _ s tok hs, authState, hd, if_neg hc, hb, hu, State.logRequest, State.store]

theorem Post_of_parse_error {α κ : Type} (w : World) (d : Client) (t : Target α κ) (url : String)
    (headers : List (String × String)) (postbody : String) (p : Ptr) (result : α) (s : State κ) (e : String)
    (hp : w.urlParse url = .error e) :
    d.Post w t url headers postbody p result s =
      (some (GoError.ext e), result,
        s.logRequest none "NewRequest(): %s" [LogArg.err (GoError.ext e)]) := by
  simp only [Client.Post, NewRequest, hp]

theorem Post_of_sign_error {α κ : Type} (w : World) (d : Client) (t : Target α κ) (url : String)
    (headers : List (String × String)) (postbody : String) (p : Ptr) (result : α) (s : State κ) (u : URL) (e : String)
    (hp : w.urlParse url = .ok u)
    (hs : w.MarshallSignSerialize (orgClaimAt (w.clock s.ticks)) = .error e) :
    d.Post w t url headers postbody p result s =
      (some (GoError.ext e), result,
        (authState w s).logRequest
          (some (setHeaders { Method := "POST", URL := url, Header := [], Body := some postbody }
            headers))
          "Authorize(): %s" [LogArg.err (GoError.ext e)]) := by
  simp only [Client.Post, NewRequest, hp, Authorize_of_sign_error w d _ s e hs]

theorem Post_of_do_error {α κ : Type} (w : World) (d : Client) (t : Target α κ) (url : String)
    (headers : List (String × String)) (postbody : String) (p : Ptr) (result : α) (s : State κ) (u : URL) (tok e : String)
    (hp : w.urlParse url = .ok u)
    (hs : w.MarshallSignSerialize (orgClaimAt (w.clock s.ticks)) = .ok tok)
    (hd : w.Do s.sent (authRequest "POST" url headers (some postbody) tok) = .error e) :
    d.Post w t url headers postbody p result s =
      (some (GoError.ext e), result,
        (sentState w s (authRequest "POST" url headers (some postbody) tok)).logRequest
          (some (authRequest "POST" url headers (some postbody) tok)) "Do(): %s" [LogArg.err (GoError.ext e)]) := by
  simp only [authRequest, authState, sentState] at hd ⊢
  simp only [Client.Post, NewRequest, hp, Authorize_of_sign_ok w d _ s tok hs, authState, hd]

theorem Post_of_status {α κ : Type} (w : World) (d : Client) (t : Target α κ) (url : String)
    (headers : List (String × String)) (postbody : String) (p : Ptr) (result : α) (s : State κ) (u : URL) (tok : String) (resp : Response)
    (hp : w.urlParse url = .ok u)
    (hs : w.MarshallSignSerialize (orgClaimAt (w.clock s.ticks)) = .ok tok)
    (hd : w.Do s.sent (authRequest "POST" url headers (some postbody) tok) = .ok resp)
    (hc : resp.StatusCode > 400) :
    d.Post w t url headers postbody p result s =
      (some (GoError.errorString ("http status: " ++ toString resp.StatusCode)), result,
        (sentState w s (authRequest "POST" url headers (some postbody) tok)).logRequest
          (some (authRequest "POST" url headers (some postbody) tok)) "status: %s(%d)"
          [LogArg.str resp.Status, LogArg.int resp.StatusCode]) := by
  simp only [authRequest, authState, sentState] at hd ⊢
  simp only [Client.Post, NewRequest, hp, Authorize_of_sign_ok w d _ s tok hs, authState, hd, if_pos hc]

theorem Post_of_read_error {α κ : Type} (w : World) (d : Client) (t : Target α κ) (url : String)
    (headers : List (String × String)) (postbody : String) (p : Ptr) (result : α) (s : State κ) (u : URL) (tok : String) (resp : Response) (e : String)
    (hp : w.urlParse url = .ok u)
    (hs : w.MarshallSignSerialize (orgClaimAt (w.clock s.ticks)) = .ok tok)
    (hd : w.Do s.sent (authRequest "POST" url headers (some postbody) tok) = .ok resp)
    (hc : ¬ resp.StatusCode > 400) (hb : resp.Body = .error e) :
    d.Post w t url headers postbody p result s =
      (some (GoError.ext e), result,
        (sentState w s (authRequest "POST" url headers (some postbody) tok)).logRequest
          (some (authRequest "POST" url headers (some postbody) tok)) "ReadAll(): %s" [LogArg.err (GoError.ext e)]) := by
  simp only [authRequest, authState, sentState] at hd ⊢
  simp only [Client.Post, NewRequest, hp, Authorize_of_sign_ok w d _ s tok hs, authState, hd, if_neg hc, hb]

theorem Post_of_decode_error {α κ : Type} (w : World) (d : Client) (t : Target α κ) (url : String)
    (headers : List (String × String)) (postbody : String) (p : Ptr) (result : α) (s : State κ) (u : URL) (tok : String) (resp : Response)
    (body e : String) (result1 : α)
    (hp : w.urlParse url = .ok u)
    (hs : w.MarshallSignSerialize (orgClaimAt (w.clock s.ticks)) = .ok tok)
    (hd : w.Do s.sent (authRequest "POST" url headers (some postbody) tok) = .ok resp)
    (hc : ¬ resp.StatusCode > 400) (hb : resp.Body = .ok body)
    (hu : t.unmarshal body result = (some e, result1)) :
    d.Post w t url headers postbody p result s =
      (some (GoError.ext e), result1,
        ((sentState w s (authRequest "POST" url headers (some postbody) tok)).store p (t.box result1)).logRequest
          (some (authRequest "POST" url headers (some postbody) tok)) "Unmarshal(): %s" [LogArg.err (GoError.ext e)]) := by
  simp only [authRequest, authState, sentState] at hd ⊢
  simp only [Client.Post, NewRequest, hp, Authorize_of_sign_ok w d _ s tok hs, authState, hd, if_neg hc, hb, hu, State.store]

theorem Post_of_decoded {α κ : Type} (w : World) (d : Client) (t : Target α κ) (url : String)
    (headers : List (String × String)) (postbody : String) (p : Ptr) (result : α) (s : State κ) (u : URL) (tok : String) (resp : Response)
    (body : String) (result1 : α)
    (hp : w.urlParse url = .ok u)
    (hs : w.MarshallSignSerialize (orgClaimAt (w.clock s.ticks)) = .ok tok)
    (hd : w.Do s.sent (authRequest "POST" url headers (some postbody) tok) = .ok resp)
    (hc : ¬ resp.StatusCode > 400) (hb : resp.Body = .ok body)
    (hu : t.unmarshal body result = (none, result1)) :
    d.Post w t url headers postbody p result s =
      (none, result1,
        ((sentState w s (authRequest "POST" url headers (some postbody) tok)).store p (t.box result1)).logRequest
          (some (authRequest "POST" url headers (some postbody) tok)) "Post(): OK" []) := by
  simp only [authRequest, authState, sentState] at hd ⊢
  simp only [Client.Post, NewRequest, hp, Authorize_of_sign_ok w d _ s tok hs, authState, hd, if_neg hc, hb, hu, State.logRequest, State.store]
/-- Case analysis on a call of `Get`: a property that holds of the outcome of
each of the seven return paths holds of the call. -/
theorem Get_cases {α κ : Type} (w : World) (d : Client) (t : Target α κ) (url : String)
    (headers : List (String × String)) (p : Ptr) (result : α) (s : State κ)
    (P : Option GoError × α × State κ → Prop)
    (hparse : ∀ e, w.urlParse url = .error e →
      P (some (GoError.ext e), result,
        s.logRequest none "NewRequest(): %s" [LogArg.err (GoError.ext e)]))
    (hsign : ∀ u e, w.urlParse url = .ok u →
      w.MarshallSignSerialize (orgClaimAt (w.clock s.ticks)) = .error e →
      P (some (GoError.ext e), result,
        (authState w s).logRequest
          (some (setHeaders { Method := "GET", URL := url, Header := [], Body := none } headers))
          "Authorize(): %s" [LogArg.err (GoError.ext e)]))
    (hdo : ∀ u tok e, w.urlParse url = .ok u →
      w.MarshallSignSerialize (orgClaimAt (w.clock s.ticks)) = .ok tok →
      w.Do s.sent (authRequest "GET" url headers none tok) = .error e →
      P (some (GoError.ext e), result,
        (sentState w s (authRequest "GET" url headers none tok)).logRequest
          (some (authRequest "GET" url headers none tok)) "Do(): %s" [LogArg.err (GoError.ext e)]))
    (hstatus : ∀ u tok resp, w.urlParse url = .ok u →
      w.MarshallSignSerialize (orgClaimAt (w.clock s.ticks)) = .ok tok →
      w.Do s.sent (authRequest "GET" url headers none tok) = .ok resp →
      resp.StatusCode > 400 →
      P (some (GoError.errorString ("http status: " ++ toString resp.StatusCode)), result,
        (sentState w s (authRequest "GET" url headers none tok)).logRequest
          (some (authRequest "GET" url headers none tok)) "status: %s(%d)"
          [LogArg.str resp.Status, LogArg.int resp.StatusCode]))
    (hread : ∀ u tok resp e, w.urlParse url = .ok u →
      w.MarshallSignSerialize (orgClaimAt (w.clock s.ticks)) = .ok tok →
      w.Do s.sent (authRequest "GET" url headers none tok) = .ok resp →
      ¬ resp.StatusCode > 400 → resp.Body = .error e →
      P (some (GoError.ext e), result,
        (sentState w s (authRequest "GET" url headers none tok)).logRequest
          (some (authRequest "GET" url headers none tok)) "ReadAll(): %s" [LogArg.err (GoError.ext e)]))
    (hdecode : ∀ u tok resp body e result1, w.urlParse url = .ok u →
      w.MarshallSignSerialize (orgClaimAt (w.clock s.ticks)) = .ok tok →
      w.Do s.sent (authRequest "GET" url headers none tok) = .ok resp →
      ¬ resp.StatusCode > 400 → resp.Body = .ok body →
      t.unmarshal body result = (some e, result1) →
      P (some (GoError.ext e), result1,
        ((sentState w s (authRequest "GET" url headers none tok)).store p (t.box result1)).logRequest
          (some (authRequest "GET" url headers none tok)) "Unmarshal(): %s" [LogArg.err (GoError.ext e)]))
    (hok : ∀ u tok resp body result1, w.urlParse url = .ok u →
      w.MarshallSignSerialize (orgClaimAt (w.clock s.ticks)) = .ok tok →
      w.Do s.sent (authRequest "GET" url headers none tok) = .ok resp →
      ¬ resp.StatusCode > 400 → resp.Body = .ok body →
      t.unmarshal body result = (none, result1) →
      P (none, result1,
          { ((sentState w s (authRequest "GET" url headers none tok)).store p (t.box result1)).logRequest
              (some (authRequest "GET" url headers none tok)) "Get(): OK" [] with
            cache := s.cache.Set url p DefaultExpiration })) :
    P (d.Get w t url headers p result s) := by
  cases hp : w.urlParse url with
  | error e => rw [Get_of_parse_error w d t url headers p result s e hp]; exact hparse e hp
  | ok u =>
    cases hs : w.MarshallSignSerialize (orgClaimAt (w.clock s.ticks)) with
    | error e =>
      rw [Get_of_sign_error w d t url headers p result s u e hp hs]; exact hsign u e hp hs
    | ok tok =>
      cases hd : w.Do s.sent (authRequest "GET" url headers none tok) with
      | error e =>
        rw [Get_of_do_error w d t url headers p result s u tok e hp hs hd]
        exact hdo u tok e hp hs hd
      | ok resp =>
        by_cases hc : resp.StatusCode > 400
        · rw [Get_of_status w d t url headers p result s u tok resp hp hs hd hc]
          exact hstatus u tok resp hp hs hd hc
        · cases hb : resp.Body with
          | error e =>
            rw [Get_of_read_error w d t url headers p result s u tok resp e hp hs hd hc hb]
            exact hread u tok resp e hp hs hd hc hb
          | ok body =>
            cases hu : t.unmarshal body result with
            | mk oe result1 =>
              cases oe with
              | some e =>
                rw [Get_of_decode_error w d t url headers p result s u tok resp body e result1
                  hp hs hd hc hb hu]
                exact hdecode u tok resp body e result1 hp hs hd hc hb hu
              | none =>
                rw [Get_of_decoded w d t url headers p result s u tok resp body result1
                  hp hs hd hc hb hu]
                exact hok u tok resp body result1 hp hs hd hc hb hu

/-- Case analysis on a call of `Post`: a property that holds of the outcome of
each of the seven return paths holds of the call. -/
theorem Post_cases {α κ : Type} (w : World) (d : Client) (t : Target α κ) (url : String)
    (headers : List (String × String)) (postbody : String) (p : Ptr) (result : α) (s : State κ)
    (P : Option GoError × α × State κ → Prop)
    (hparse : ∀ e, w.urlParse url = .error e →
      P (some (GoError.ext e), result,
        s.logRequest none "NewRequest(): %s" [LogArg.err (GoError.ext e)]))
    (hsign : ∀ u e, w.urlParse url = .ok u →
      w.MarshallSignSerialize (orgClaimAt (w.clock s.ticks)) = .error e →
      P (some (GoError.ext e), result,
        (authState w s).logRequest
          (some (setHeaders { Method := "POST", URL := url, Header := [], Body := (some postbody) } headers))
          "Authorize(): %s" [LogArg.err (GoError.ext e)]))
    (hdo : ∀ u tok e, w.urlParse url = .ok u →
      w.MarshallSignSerialize (orgClaimAt (w.clock s.ticks)) = .ok tok →
      w.Do s.sent (authRequest "POST" url headers (some postbody) tok) = .error e →
      P (some (GoError.ext e), result,
        (sentState w s (authRequest "POST" url headers (some postbody) tok)).logRequest
          (some (authRequest "POST" url headers (some postbody) tok)) "Do(): %s" [LogArg.err (GoError.ext e)]))
    (hstatus : ∀ u tok resp, w.urlParse url = .ok u →
      w.MarshallSignSerialize (orgClaimAt (w.clock s.ticks)) = .ok tok →
      w.Do s.sent (authRequest "POST" url headers (some postbody) tok) = .ok resp →
      resp.StatusCode > 400 →
      P (some (GoError.errorString ("http status: " ++ toString resp.StatusCode)), result,
        (sentState w s (authRequest "POST" url headers (some postbody) tok)).logRequest
          (some (authRequest "POST" url headers (some postbody) tok)) "status: %s(%d)"
          [LogArg.str resp.Status, LogArg.int resp.StatusCode]))
    (hread : ∀ u tok resp e, w.urlParse url = .ok u →
      w.MarshallSignSerialize (orgClaimAt (w.clock s.ticks)) = .ok tok →
      w.Do s.sent (authRequest "POST" url headers (some postbody) tok) = .ok resp →
      ¬ resp.StatusCode > 400 → resp.Body = .error e →
      P (some (GoError.ext e), result,
        (sentState w s (authRequest "POST" url headers (some postbody) tok)).logRequest
          (some (authRequest "POST" url headers (some postbody) tok)) "ReadAll(): %s" [LogArg.err (GoError.ext e)]))
    (hdecode : ∀ u tok resp body e result1, w.urlParse url = .ok u →
      w.MarshallSignSerialize (orgClaimAt (w.clock s.ticks)) = .ok tok →
      w.Do s.sent (authRequest "POST" url headers (some postbody) tok) = .ok resp →
      ¬ resp.StatusCode > 400 → resp.Body = .ok body →
      t.unmarshal body result = (some e, result1) →
      P (some (GoError.ext e), result1,
        ((sentState w s (authRequest "POST" url headers (some postbody) tok)).store p (t.box result1)).logRequest
          (some (authRequest "POST" url headers (some postbody) tok)) "Unmarshal(): %s" [LogArg.err (GoError.ext e)]))
    (hok : ∀ u tok resp body result1, w.urlParse url = .ok u →
      w.MarshallSignSerialize (orgClaimAt (w.clock s.ticks)) = .ok tok →
      w.Do s.sent (authRequest "POST" url headers (some postbody) tok) = .ok resp →
      ¬ resp.StatusCode > 400 → resp.Body = .ok body →
      t.unmarshal body result = (none, result1) →
      P (none, result1,
          ((sentState w s (authRequest "POST" url headers (some postbody) tok)).store p (t.box result1)).logRequest
            (some (authRequest "POST" url headers (some postbody) tok)) "Post(): OK" [])) :
    P (d.Post w t url headers postbody p result s) := by
  cases hp : w.urlParse url with
  | error e => rw [Post_of_parse_error w d t url headers postbody p result s e hp]; exact hparse e hp
  | ok u =>
    cases hs : w.MarshallSignSerialize (orgClaimAt (w.clock s.ticks)) with
    | error e =>
      rw [Post_of_sign_error w d t url headers postbody p result s u e hp hs]; exact hsign u e hp hs
    | ok tok =>
      cases hd : w.Do s.sent (authRequest "POST" url headers (some postbody) tok) with
      | error e =>
        rw [Post_of_do_error w d t url headers postbody p result s u tok e hp hs hd]
        exact hdo u tok e hp hs hd
      | ok resp =>
        by_cases hc : resp.StatusCode > 400
        · rw [Post_of_status w d t url headers postbody p result s u tok resp hp hs hd hc]
          exact hstatus u tok resp hp hs hd hc
        · cases hb : resp.Body with
          | error e =>
            rw [Post_of_read_error w d t url headers postbody p result s u tok resp e hp hs hd hc hb]
            exact hread u tok resp e hp hs hd hc hb
          | ok body =>
            cases hu : t.unmarshal body result with
            | mk oe result1 =>
              cases oe with
              | some e =>
                rw [Post_of_decode_error w d t url headers postbody p result s u tok resp body e result1
                  hp hs hd hc hb hu]
                exact hdecode u tok resp body e result1 hp hs hd hc hb hu
              | none =>
                rw [Post_of_decoded w d t url headers postbody p result s u tok resp body result1
                  hp hs hd hc hb hu]
                exact hok u tok resp body result1 hp hs hd hc hb hu
/-! ## Status classification -/

/-- C1: when request construction, signing and the transport call succeed and
the response has status code `s`, `Get` and `Post` return the error
`http status: <s>` exactly when `s > 400`, leaving `result` untouched; for every
`s ≤ 400`, also `s = 400`, they return no status error and their outcome is that
of reading and JSON-decoding the body. -/
theorem status_error_iff_above_400 {α κ : Type} (w : World) (d : Client) (t : Target α κ)
    (url : String) (headers : List (String × String)) (postbody : String) (p : Ptr) (result : α)
    (s : State κ) (u : URL) (tok : String) (respG respP : Response)
    (hp : w.urlParse url = .ok u)
    (hs : w.MarshallSignSerialize (orgClaimAt (w.clock s.ticks)) = .ok tok)
    (hget : w.Do s.sent (authRequest "GET" url headers none tok) = .ok respG)
    (hpost : w.Do s.sent (authRequest "POST" url headers (some postbody) tok) = .ok respP) :
    (((d.Get w t url headers p result s).1 =
          some (GoError.errorString ("http status: " ++ toString respG.StatusCode)) ↔
        respG.StatusCode > 400) ∧
      (respG.StatusCode > 400 → (d.Get w t url headers p result s).2.1 = result) ∧
      (respG.StatusCode ≤ 400 →
        (∀ msg, (d.Get w t url headers p result s).1 ≠ some (GoError.errorString msg)) ∧
        ((d.Get w t url headers p result s).1, (d.Get w t url headers p result s).2.1) =
          readAndDecode t respG result)) ∧
    (((d.Post w t url headers postbody p result s).1 =
          some (GoError.errorString ("http status: " ++ toString respP.StatusCode)) ↔
        respP.StatusCode > 400) ∧
      (respP.StatusCode > 400 → (d.Post w t url headers postbody p result s).2.1 = result) ∧
      (respP.StatusCode ≤ 400 →
        (∀ msg, (d.Post w t url headers postbody p result s).1 ≠ some (GoError.errorString msg)) ∧
        ((d.Post w t url headers postbody p result s).1,
            (d.Post w t url headers postbody p result s).2.1) =
          readAndDecode t respP result)) := by
  constructor
  · by_cases hc : respG.StatusCode > 400
    · rw [Get_of_status w d t url headers p result s u tok respG hp hs hget hc]
      exact ⟨⟨fun _ => hc, fun _ => rfl⟩, fun _ => rfl, fun h => absurd hc (not_lt.mpr h)⟩
    · cases hb : respG.Body with
      | error e =>
        rw [Get_of_read_error w d t url headers p result s u tok respG e hp hs hget hc hb]
        simp [readAndDecode, hb, hc]
      | ok body =>
        cases hu : t.unmarshal body result with
        | mk oe result1 =>
          cases oe with
          | some e =>
            rw [Get_of_decode_error w d t url headers p result s u tok respG body e result1
              hp hs hget hc hb hu]
            simp [readAndDecode, hb, hc, hu]
          | none =>
            rw [Get_of_decoded w d t url headers p result s u tok respG body result1
              hp hs hget hc hb hu]
            simp [readAndDecode, hb, hc, hu]
  · by_cases hc : respP.StatusCode > 400
    · rw [Post_of_status w d t url headers postbody p result s u tok respP hp hs hpost hc]
      exact ⟨⟨fun _ => hc, fun _ => rfl⟩, fun _ => rfl, fun h => absurd hc (not_lt.mpr h)⟩
    · cases hb : respP.Body with
      | error e =>
        rw [Post_of_read_error w d t url headers postbody p result s u tok respP e hp hs hpost hc hb]
        simp [readAndDecode, hb, hc]
      | ok body =>
        cases hu : t.unmarshal body result with
        | mk oe result1 =>
          cases oe with
          | some e =>
            rw [Post_of_decode_error w d t url headers postbody p result s u tok respP body e
              result1 hp hs hpost hc hb hu]
            simp [readAndDecode, hb, hc, hu]
          | none =>
            rw [Post_of_decoded w d t url headers postbody p result s u tok respP body result1
              hp hs hpost hc hb hu]
            simp [readAndDecode, hb, hc, hu]

/-- A server that answers `GET` with status 400 and `POST` with status 401:
the first is decoded, the second is a status error. -/
theorem status_error_iff_above_400_witness :
    ((demoWorld (demoResp 400 "\x7b\x7d") (demoResp 401 "") true).urlParse "/" =
        .ok { Scheme := "http", Host := "ds.example" } ∧
      (demoWorld (demoResp 400 "\x7b\x7d") (demoResp 401 "") true).MarshallSignSerialize
          (orgClaimAt ((demoWorld (demoResp 400 "\x7b\x7d") (demoResp 401 "") true).clock
            demoState.ticks)) = .ok "jwt" ∧
      (demoWorld (demoResp 400 "\x7b\x7d") (demoResp 401 "") true).Do demoState.sent
          (authRequest "GET" "/" demoClient.authGetJson none "jwt") =
        .ok { Status := "", StatusCode := 400, Body := .ok "\x7b\x7d" } ∧
      (demoWorld (demoResp 400 "\x7b\x7d") (demoResp 401 "") true).Do demoState.sent
          (authRequest "POST" "/" demoClient.authGetJson (some "") "jwt") =
        .ok { Status := "", StatusCode := 401, Body := .ok "" }) ∧
    (∀ msg, (demoClient.Get (demoWorld (demoResp 400 "\x7b\x7d") (demoResp 401 "") true)
        demoCodec.entry "/" demoClient.authGetJson 0 EntryPoint.zero demoState).1 ≠
          some (GoError.errorString msg)) ∧
    (demoClient.Post (demoWorld (demoResp 400 "\x7b\x7d") (demoResp 401 "") true)
        demoCodec.entry "/" demoClient.authGetJson "" 0 EntryPoint.zero demoState).1 =
      some (GoError.errorString "http status: 401") :=
  have h := status_error_iff_above_400
    (demoWorld (demoResp 400 "\x7b\x7d") (demoResp 401 "") true) demoClient demoCodec.entry "/"
    demoClient.authGetJson "" 0 EntryPoint.zero demoState { Scheme := "http", Host := "ds.example" }
    "jwt" { Status := "", StatusCode := 400, Body := .ok "\x7b\x7d" }
    { Status := "", StatusCode := 401, Body := .ok "" } rfl rfl rfl rfl
  ⟨⟨rfl, rfl, rfl, rfl⟩, (h.1.2.2 (by decide)).1, (h.2.1.mpr (by decide)).trans (by decide)⟩

/-- C5: evaluation at a response with status code 400.  `Get` and `Post` both
return `nil` and decode the body, where the claim asks for a status error
carrying 400. -/
theorem status_400_is_decoded :
    (demoClient.Get (demoWorld (demoResp 400 demoEntryDoc) (demoResp 400 demoKeyDoc) true)
        demoCodec.entry "/" demoClient.authGetJson 0 EntryPoint.zero demoState).1 = none ∧
    (demoClient.Get (demoWorld (demoResp 400 demoEntryDoc) (demoResp 400 demoKeyDoc) true)
        demoCodec.entry "/" demoClient.authGetJson 0 EntryPoint.zero demoState).2.1 =
      { Links := [("accesskeys", { Href := "/keys" })] } ∧
    (demoClient.Post (demoWorld (demoResp 400 demoEntryDoc) (demoResp 400 demoKeyDoc) true)
        demoCodec.key "/keys" demoClient.authPostJson (nameBody "foo") 0 AccessKey.zero
        demoState).1 = none ∧
    (demoClient.Post (demoWorld (demoResp 400 demoEntryDoc) (demoResp 400 demoKeyDoc) true)
        demoCodec.key "/keys" demoClient.authPostJson (nameBody "foo") 0 AccessKey.zero
        demoState).2.1 = { Name := "foo", Key := "k1", Links := [] } := by
  decide

/-! ## Cache writes -/

theorem setHeaders_fields (headers : List (String × String)) (req : Request) :
    (setHeaders req headers).Method = req.Method ∧ (setHeaders req headers).URL = req.URL ∧
      (setHeaders req headers).Body = req.Body := by
  induction headers generalizing req with
  | nil => exact ⟨rfl, rfl, rfl⟩
  | cons nv rest ih =>
    have h := ih { req with Header := req.Header.Set nv.1 nv.2 }
    simpa [setHeaders] using h

theorem authRequest_fields (method url : String) (headers : List (String × String))
    (body : Option String) (tok : String) :
    (authRequest method url headers body tok).Method = method ∧
      (authRequest method url headers body tok).URL = url ∧
      (authRequest method url headers body tok).Body = body := by
  have h := setHeaders_fields headers { Method := method, URL := url, Header := [], Body := body }
  simpa [authRequest] using h

/-- What `Get` sends: nothing, or the one authorized `GET` request for the URL. -/
theorem Get_sent {α κ : Type} (w : World) (d : Client) (t : Target α κ) (url : String)
    (headers : List (String × String)) (p : Ptr) (result : α) (s : State κ) :
    (d.Get w t url headers p result s).2.2.sent = s.sent ∨
      ∃ tok, w.MarshallSignSerialize (orgClaimAt (w.clock s.ticks)) = .ok tok ∧
        (d.Get w t url headers p result s).2.2.sent =
          s.sent ++ [authRequest "GET" url headers none tok] := by
  refine Get_cases w d t url headers p result s
    (fun r => r.2.2.sent = s.sent ∨
      ∃ tok, w.MarshallSignSerialize (orgClaimAt (w.clock s.ticks)) = .ok tok ∧
        r.2.2.sent = s.sent ++ [authRequest "GET" url headers none tok]) ?_ ?_ ?_ ?_ ?_ ?_ ?_
  · intro e _
    exact Or.inl rfl
  · intro u e _ _
    exact Or.inl rfl
  · intro u tok e _ hs _
    exact Or.inr ⟨tok, hs, rfl⟩
  · intro u tok resp _ hs _ _
    exact Or.inr ⟨tok, hs, rfl⟩
  · intro u tok resp e _ hs _ _ _
    exact Or.inr ⟨tok, hs, rfl⟩
  · intro u tok resp body e result1 _ hs _ _ _ _
    exact Or.inr ⟨tok, hs, rfl⟩
  · intro u tok resp body result1 _ hs _ _ _ _
    exact Or.inr ⟨tok, hs, rfl⟩

/-- A successful `Get` sent its request, got a response that passed the
status check, and returns what `json.Unmarshal` left behind `result`. -/
theorem Get_ok_inv {α κ : Type} (w : World) (d : Client) (t : Target α κ) (url : String)
    (headers : List (String × String)) (p : Ptr) (result : α) (s : State κ)
    (h : (d.Get w t url headers p result s).1 = none) :
    ∃ tok resp body, w.MarshallSignSerialize (orgClaimAt (w.clock s.ticks)) = .ok tok ∧
      w.Do s.sent (authRequest "GET" url headers none tok) = .ok resp ∧
      resp.StatusCode ≤ 400 ∧ resp.Body = .ok body ∧
      t.unmarshal body result = (none, (d.Get w t url headers p result s).2.1) ∧
      (d.Get w t url headers p result s).2.2.sent =
        s.sent ++ [authRequest "GET" url headers none tok] := by
  revert h
  refine Get_cases w d t url headers p result s
    (fun r => r.1 = none →
      ∃ tok resp body, w.MarshallSignSerialize (orgClaimAt (w.clock s.ticks)) = .ok tok ∧
        w.Do s.sent (authRequest "GET" url headers none tok) = .ok resp ∧
        resp.StatusCode ≤ 400 ∧ resp.Body = .ok body ∧
        t.unmarshal body result = (none, r.2.1) ∧
        r.2.2.sent = s.sent ++ [authRequest "GET" url headers none tok]) ?_ ?_ ?_ ?_ ?_ ?_ ?_
  · intro e _ h
    exact absurd h (by simp)
  · intro u e _ _ h
    exact absurd h (by simp)
  · intro u tok e _ _ _ h
    exact absurd h (by simp)
  · intro u tok resp _ _ _ _ h
    exact absurd h (by simp)
  · intro u tok resp e _ _ _ _ _ h
    exact absurd h (by simp)
  · intro u tok resp body e result1 _ _ _ _ _ _ h
    exact absurd h (by simp)
  · intro u tok resp body result1 _ hs hd hc hb hu _
    exact ⟨tok, resp, body, hs, hd, not_lt.mp hc, hb, hu, rfl⟩

/-- A successful `Post` sent its request, got a response that passed the
status check, and returns what `json.Unmarshal` left behind `result`. -/
theorem Post_ok_inv {α κ : Type} (w : World) (d : Client) (t : Target α κ) (url : String)
    (headers : List (String × String)) (postbody : String) (p : Ptr) (result : α) (s : State κ)
    (h : (d.Post w t url headers postbody p result s).1 = none) :
    ∃ tok resp body, w.MarshallSignSerialize (orgClaimAt (w.clock s.ticks)) = .ok tok ∧
      w.Do s.sent (authRequest "POST" url headers (some postbody) tok) = .ok resp ∧
      resp.StatusCode ≤ 400 ∧ resp.Body = .ok body ∧
      t.unmarshal body result = (none, (d.Post w t url headers postbody p result s).2.1) ∧
      (d.Post w t url headers postbody p result s).2.2.sent =
        s.sent ++ [authRequest "POST" url headers (some postbody) tok] := by
  revert h
  refine Post_cases w d t url headers postbody p result s
    (fun r => r.1 = none →
      ∃ tok resp body, w.MarshallSignSerialize (orgClaimAt (w.clock s.ticks)) = .ok tok ∧
        w.Do s.sent (authRequest "POST" url headers (some postbody) tok) = .ok resp ∧
        resp.StatusCode ≤ 400 ∧ resp.Body = .ok body ∧
        t.unmarshal body result = (none, r.2.1) ∧
        r.2.2.sent = s.sent ++ [authRequest "POST" url headers (some postbody) tok])
    ?_ ?_ ?_ ?_ ?_ ?_ ?_
  · intro e _ h
    exact absurd h (by simp)
  · intro u e _ _ h
    exact absurd h (by simp)
  · intro u tok e _ _ _ h
    exact absurd h (by simp)
  · intro u tok resp _ _ _ _ h
    exact absurd h (by simp)
  · intro u tok resp e _ _ _ _ _ h
    exact absurd h (by simp)
  · intro u tok resp body e result1 _ _ _ _ _ _ h
    exact absurd h (by simp)
  · intro u tok resp body result1 _ hs hd hc hb hu _
    exact ⟨tok, resp, body, hs, hd, not_lt.mp hc, hb, hu, rfl⟩

/-! ## `CreateAccessKey` -/

/-- C8: when the entry-point `Get` (into the new variable `entry`) returns the
error `err`, or returns `nil` while `GetLink` on the decoded entry point returns
the error `err`, `CreateAccessKey` returns a nil key with exactly `err`; the
requests sent are those of the `Get` alone, so whatever was added to the sent
requests is a `GET` and no `POST` is issued. -/
theorem CreateAccessKey_early_error {κ : Type} (w : World) (d : Client) (c : Codec κ)
    (name : String) (s : State κ) (err : GoError)
    (h : (d.Get w c.entry d.baseUrl d.authGetJson s.next EntryPoint.zero
          (s.newVar (c.entry.box EntryPoint.zero))).1 = some err ∨
      ((d.Get w c.entry d.baseUrl d.authGetJson s.next EntryPoint.zero
          (s.newVar (c.entry.box EntryPoint.zero))).1 = none ∧
        (d.Get w c.entry d.baseUrl d.authGetJson s.next EntryPoint.zero
          (s.newVar (c.entry.box EntryPoint.zero))).2.1.Links.GetLink
          "accesskeys" = .error err)) :
    (d.CreateAccessKey w c name s).1 = (none, some err) ∧
    (d.CreateAccessKey w c name s).2.sent =
      (d.Get w c.entry d.baseUrl d.authGetJson s.next EntryPoint.zero
        (s.newVar (c.entry.box EntryPoint.zero))).2.2.sent ∧
    ∃ rs, (d.CreateAccessKey w c name s).2.sent = s.sent ++ rs ∧
      ∀ r ∈ rs, r.Method = "GET" := by
  have hsent : ∃ rs, (d.Get w c.entry d.baseUrl d.authGetJson s.next EntryPoint.zero
      (s.newVar (c.entry.box EntryPoint.zero))).2.2.sent =
      s.sent ++ rs ∧ ∀ r ∈ rs, r.Method = "GET" := by
    rcases Get_sent w d c.entry d.baseUrl d.authGetJson s.next EntryPoint.zero
      (s.newVar (c.entry.box EntryPoint.zero)) with h0 | ⟨tok, _, h1⟩
    · exact ⟨[], by simpa [State.newVar] using h0, by simp⟩
    · refine ⟨[authRequest "GET" d.baseUrl d.authGetJson none tok], h1, ?_⟩
      intro r hr
      rw [List.mem_singleton] at hr
      rw [hr]
      exact (authRequest_fields "GET" d.baseUrl d.authGetJson none tok).1
  have hmain : (d.CreateAccessKey w c name s).1 = (none, some err) ∧
      (d.CreateAccessKey w c name s).2.sent =
        (d.Get w c.entry d.baseUrl d.authGetJson s.next EntryPoint.zero
          (s.newVar (c.entry.box EntryPoint.zero))).2.2.sent := by
    unfold Client.CreateAccessKey
    rcases hg : d.Get w c.entry d.baseUrl d.authGetJson s.next EntryPoint.zero
      (s.newVar (c.entry.box EntryPoint.zero)) with ⟨oe, entry, s1⟩
    rw [hg] at h
    rcases h with h | ⟨h, hl⟩
    · simp only at h
      subst h
      exact ⟨rfl, rfl⟩
    · simp only at h hl
      subst h
      constructor <;> simp only [hl, State.logError]
  obtain ⟨rs, hrs, hget⟩ := hsent
  exact ⟨hmain.1, hmain.2, rs, hmain.2.trans hrs, hget⟩

/-- An entry point without the `accesskeys` relation: `CreateAccessKey` returns
the nil key and the missing-relation error, after the one `GET`. -/
theorem CreateAccessKey_early_error_witness :
    (demoClient.CreateAccessKey (demoWorld (demoResp 200 "\x7b\x7d") (demoResp 200 demoKeyDoc) true)
        demoCodec "foo" demoState).1 = (none, some (GoError.missingRelation "accesskeys")) ∧
    (demoClient.CreateAccessKey (demoWorld (demoResp 200 "\x7b\x7d") (demoResp 200 demoKeyDoc) true)
        demoCodec "foo" demoState).2.sent =
      (demoClient.Get (demoWorld (demoResp 200 "\x7b\x7d") (demoResp 200 demoKeyDoc) true)
        demoCodec.entry demoClient.baseUrl demoClient.authGetJson demoState.next EntryPoint.zero
        (demoState.newVar (demoCodec.entry.box EntryPoint.zero))).2.2.sent :=
  have h := CreateAccessKey_early_error
    (demoWorld (demoResp 200 "\x7b\x7d") (demoResp 200 demoKeyDoc) true) demoClient demoCodec
    "foo" demoState (GoError.missingRelation "accesskeys") (Or.inr ⟨by decide, rfl⟩)
  ⟨h.1, h.2.1⟩

/-- C4: when the entry-point `Get` (into the new variable `entry`) returns `nil`,
`GetLink` gives the link of the `accesskeys` relation and the `Post` (into the
new variable `key`) returns `nil`, `CreateAccessKey` sends exactly two requests,
first a `GET` to the base URL and then a `POST` to the href of the link whose
body is the name between the two fixed pieces of the format, and it returns
the key decoded from the body of the `POST` response together with a nil
error. -/
theorem CreateAccessKey_success {κ : Type} (w : World) (d : Client) (c : Codec κ)
    (name : String) (s : State κ) (link : Link)
    (hget : (d.Get w c.entry d.baseUrl d.authGetJson s.next EntryPoint.zero
      (s.newVar (c.entry.box EntryPoint.zero))).1 = none)
    (hlink : (d.Get w c.entry d.baseUrl d.authGetJson s.next EntryPoint.zero
      (s.newVar (c.entry.box EntryPoint.zero))).2.1.Links.GetLink "accesskeys" = .ok link)
    (hpost : (d.Post w c.key link.Href d.authPostJson (nameBody name)
      (d.Get w c.entry d.baseUrl d.authGetJson s.next EntryPoint.zero
        (s.newVar (c.entry.box EntryPoint.zero))).2.2.next AccessKey.zero
      ((d.Get w c.entry d.baseUrl d.authGetJson s.next EntryPoint.zero
        (s.newVar (c.entry.box EntryPoint.zero))).2.2.newVar
          (c.key.box AccessKey.zero))).1 = none) :
    ∃ key r1 r2 resp body,
      (d.CreateAccessKey w c name s).1 = (some key, none) ∧
      (d.CreateAccessKey w c name s).2.sent = s.sent ++ [r1, r2] ∧
      r1.Method = "GET" ∧ r1.URL = d.baseUrl ∧ r1.Body = none ∧
      r2.Method = "POST" ∧ r2.URL = link.Href ∧
      r2.Body = some ("\x7b\"Name\":\"" ++ name ++ "\"\x7d") ∧
      w.Do (s.sent ++ [r1]) r2 = .ok resp ∧ resp.Body = .ok body ∧
      c.key.unmarshal body AccessKey.zero = (none, key) := by
  obtain ⟨tok1, resp1, body1, _, _, _, _, _, hsent1⟩ :=
    Get_ok_inv w d c.entry d.baseUrl d.authGetJson s.next EntryPoint.zero
      (s.newVar (c.entry.box EntryPoint.zero)) hget
  obtain ⟨tok2, resp2, body2, _, hd2, _, hb2, hu2, hsent2⟩ :=
    Post_ok_inv w d c.key link.Href d.authPostJson (nameBody name) _ AccessKey.zero _ hpost
  have hsent1a : (d.Get w c.entry d.baseUrl d.authGetJson s.next EntryPoint.zero
      (s.newVar (c.entry.box EntryPoint.zero))).2.2.sent =
      s.sent ++ [authRequest "GET" d.baseUrl d.authGetJson none tok1] := hsent1
  have hf1 := authRequest_fields "GET" d.baseUrl d.authGetJson none tok1
  have hf2 := authRequest_fields "POST" link.Href d.authPostJson (some (nameBody name)) tok2
  have hcall : d.CreateAccessKey w c name s =
      ((some (d.Post w c.key link.Href d.authPostJson (nameBody name)
          (d.Get w c.entry d.baseUrl d.authGetJson s.next EntryPoint.zero
            (s.newVar (c.entry.box EntryPoint.zero))).2.2.next AccessKey.zero
          ((d.Get w c.entry d.baseUrl d.authGetJson s.next EntryPoint.zero
            (s.newVar (c.entry.box EntryPoint.zero))).2.2.newVar
              (c.key.box AccessKey.zero))).2.1, none),
        (d.Post w c.key link.Href d.authPostJson (nameBody name)
          (d.Get w c.entry d.baseUrl d.authGetJson s.next EntryPoint.zero
            (s.newVar (c.entry.box EntryPoint.zero))).2.2.next AccessKey.zero
          ((d.Get w c.entry d.baseUrl d.authGetJson s.next EntryPoint.zero
            (s.newVar (c.entry.box EntryPoint.zero))).2.2.newVar
              (c.key.box AccessKey.zero))).2.2) := by
    unfold Client.CreateAccessKey
    rcases hg : d.Get w c.entry d.baseUrl d.authGetJson s.next EntryPoint.zero
      (s.newVar (c.entry.box EntryPoint.zero)) with ⟨oe, entry, s1⟩
    rw [hg] at hget hlink
    simp only at hget hlink
    subst hget
    simp only [hlink]
  refine ⟨_, authRequest "GET" d.baseUrl d.authGetJson none tok1,
    authRequest "POST" link.Href d.authPostJson (some (nameBody name)) tok2, resp2, body2,
    ?_, ?_, hf1.1, hf1.2.1, hf1.2.2, hf2.1, hf2.2.1, hf2.2.2, ?_, hb2, hu2⟩
  · rw [hcall]
  · rw [hcall]
    simp only
    rw [hsent2]
    exact (congrArg
      (fun l => l ++ [authRequest "POST" link.Href d.authPostJson (some (nameBody name)) tok2])
      hsent1a).trans (by simp)
  · rw [← hsent1a]
    exact hd2

/-- The scenario of the entry point with `accesskeys` at `/keys` and the name
`foo`: the hypotheses hold and the two requests are sent. -/
theorem CreateAccessKey_success_witness :
    (demoClient.Get (demoWorld (demoResp 200 demoEntryDoc) (demoResp 201 demoKeyDoc) true)
        demoCodec.entry demoClient.baseUrl demoClient.authGetJson demoState.next EntryPoint.zero
        (demoState.newVar (demoCodec.entry.box EntryPoint.zero))).1 = none ∧
    (demoClient.Get (demoWorld (demoResp 200 demoEntryDoc) (demoResp 201 demoKeyDoc) true)
        demoCodec.entry demoClient.baseUrl demoClient.authGetJson demoState.next EntryPoint.zero
        (demoState.newVar (demoCodec.entry.box EntryPoint.zero))).2.1.Links.GetLink
          "accesskeys" = .ok { Href := "/keys" } ∧
    ∃ key r1 r2 resp body,
      (demoClient.CreateAccessKey
          (demoWorld (demoResp 200 demoEntryDoc) (demoResp 201 demoKeyDoc) true)
          demoCodec "foo" demoState).1 = (some key, none) ∧
      (demoClient.CreateAccessKey
          (demoWorld (demoResp 200 demoEntryDoc) (demoResp 201 demoKeyDoc) true)
          demoCodec "foo" demoState).2.sent = demoState.sent ++ [r1, r2] ∧
      r1.Method = "GET" ∧ r1.URL = demoClient.baseUrl ∧ r1.Body = none ∧
      r2.Method = "POST" ∧ r2.URL = (Link.mk "/keys").Href ∧
      r2.Body = some ("\x7b\"Name\":\"" ++ "foo" ++ "\"\x7d") ∧
      (demoWorld (demoResp 200 demoEntryDoc) (demoResp 201 demoKeyDoc) true).Do
        (demoState.sent ++ [r1]) r2 = .ok resp ∧
      resp.Body = .ok body ∧
      demoCodec.key.unmarshal body AccessKey.zero = (none, key) :=
  ⟨by decide, rfl,
    CreateAccessKey_success
      (demoWorld (demoResp 200 demoEntryDoc) (demoResp 201 demoKeyDoc) true) demoClient
      demoCodec "foo" demoState { Href := "/keys" } (by decide) rfl (by decide)⟩

/-- C2: evaluation on a server that answers the `POST` with status 500.  The
`Post` inside `CreateAccessKey` returns the status error, yet `CreateAccessKey`
returns the zero-valued key together with a nil error. -/
theorem CreateAccessKey_drops_post_error :
    (demoClient.Get (demoWorld (demoResp 200 demoEntryDoc) (demoResp 500 "") true)
        demoCodec.entry demoClient.baseUrl demoClient.authGetJson demoState.next EntryPoint.zero
        (demoState.newVar (demoCodec.entry.box EntryPoint.zero))).1 = none ∧
    (demoClient.Post (demoWorld (demoResp 200 demoEntryDoc) (demoResp 500 "") true)
        demoCodec.key "/keys" demoClient.authPostJson (nameBody "foo")
        (demoClient.Get (demoWorld (demoResp 200 demoEntryDoc) (demoResp 500 "") true)
          demoCodec.entry demoClient.baseUrl demoClient.authGetJson demoState.next
          EntryPoint.zero (demoState.newVar (demoCodec.entry.box EntryPoint.zero))).2.2.next
        AccessKey.zero
        ((demoClient.Get (demoWorld (demoResp 200 demoEntryDoc) (demoResp 500 "") true)
          demoCodec.entry demoClient.baseUrl demoClient.authGetJson demoState.next
          EntryPoint.zero
          (demoState.newVar (demoCodec.entry.box EntryPoint.zero))).2.2.newVar
            (demoCodec.key.box AccessKey.zero))).1 =
      some (GoError.errorString "http status: 500") ∧
    (demoClient.CreateAccessKey (demoWorld (demoResp 200 demoEntryDoc) (demoResp 500 "") true)
        demoCodec "foo" demoState).1 = (some AccessKey.zero, none) := by
  decide

/-! ## The `delete-key` checks -/

/-- C6: in the `delete-key` action, when the self URL parses and its scheme is
neither `http` nor `https`, or its host differs from the host of the configured
device-server URL, the action returns an error and no later step has run (no
client, no credentials, no `Delete`); steps run exactly when both URLs parse and
both checks pass, and the first of them is the creation of the client. -/
theorem deleteKey_checks_before_client (w : CliWorld) (deviceserverURL self : String)
    (trace : List CliEvent) :
    (∀ u, w.urlParse self = .ok u →
      ((u.Scheme ≠ "http" ∧ u.Scheme ≠ "https") ∨
        ∀ du, w.urlParse deviceserverURL = .ok du → u.Host ≠ du.Host) →
      (∃ e, (deleteKey.Action w deviceserverURL self trace).1 = some e) ∧
        (deleteKey.Action w deviceserverURL self trace).2 = trace) ∧
    ((deleteKey.Action w deviceserverURL self trace).2 ≠ trace ↔
      ∃ u du, w.urlParse self = .ok u ∧ w.urlParse deviceserverURL = .ok du ∧
        (u.Scheme = "http" ∨ u.Scheme = "https") ∧ u.Host = du.Host) ∧
    ((deleteKey.Action w deviceserverURL self trace).2 ≠ trace →
      ∃ rest, (deleteKey.Action w deviceserverURL self trace).2 =
        trace ++ CliEvent.create deviceserverURL :: rest) := by
  unfold deleteKey.Action
  cases hu : w.urlParse self with
  | error e => simp
  | ok u =>
    cases hdu : w.urlParse deviceserverURL with
    | error e => simp
    | ok du =>
      by_cases hs : u.Scheme = "http" ∨ u.Scheme = "https"
      · by_cases hh : u.Host = du.Host
        · have hs1 : (u.Scheme != "http" && u.Scheme != "https") = false := by
            rcases hs with h | h <;> simp [h]
          have hh1 : (u.Host != du.Host) = false := by simp [hh]
          simp only [hs1, hh1, Bool.false_eq_true, if_false]
          repeat' split
          all_goals simp [hh]
          all_goals exact ⟨fun h => hs.resolve_left h, hs⟩
        · have hs1 : (u.Scheme != "http" && u.Scheme != "https") = false := by
            rcases hs with h | h <;> simp [h]
          have hh1 : (u.Host != du.Host) = true := by simp [hh]
          simp [hs1, hh1, hh]
      · have hs1 : (u.Scheme != "http" && u.Scheme != "https") = true := by
          simp only [not_or] at hs
          simp [hs.1, hs.2]
        simp [hs1, hs]

/-- A self link on another host, and one with the scheme `ftp`: both are
rejected with an empty trace. -/
theorem deleteKey_checks_before_client_witness :
    (deleteKey.Action demoCli "http://ds.example" "http://other.example/keys/1" []).2 = [] ∧
    (deleteKey.Action demoCli "http://ds.example" "ftp://ds.example/keys/1" []).2 = [] :=
  ⟨((deleteKey_checks_before_client demoCli "http://ds.example" "http://other.example/keys/1"
      []).1 { Scheme := "http", Host := "other.example" } rfl
      (Or.inr (fun du h => by
        have hdu : du = { Scheme := "http", Host := "ds.example" } :=
          (Except.ok.inj (show Except.ok _ = Except.ok du from h)).symm
        rw [hdu]
        decide))).2,
    ((deleteKey_checks_before_client demoCli "http://ds.example" "ftp://ds.example/keys/1"
      []).1 { Scheme := "ftp", Host := "ds.example" } rfl
      (Or.inl (by decide))).2⟩

/-! ## The claim signed by `Authorize` -/

theorem int64_of_range (x : Int) (hlo : -(2 : Int) ^ 63 ≤ x) (hhi : x < (2 : Int) ^ 63) :
    int64 x = x := by
  unfold int64
  have h : (x + 2 ^ 63) % 2 ^ 64 = x + 2 ^ 63 := by
    apply Int.emod_eq_of_lt <;> omega
  rw [h]
  omega

theorem orgClaimAt_Exp (now : Time)
    (hnsec : 0 ≤ now.nsec ∧ now.nsec < 1000000000)
    (hlo : -(2 : Int) ^ 63 ≤ now.sec - unixToInternal)
    (hhi : now.sec + 3600 < (2 : Int) ^ 63) :
    orgClaimAt now = { OrgID := 0, Exp := now.Unix + 3600 } ∧ now.Unix < now.Unix + 3600 := by
  have hu : unixToInternal = 62135596800 := by decide
  have hd : Int.tdiv (60 * Minute) 1000000000 = 3600 := by decide
  have hm : Int.tmod (60 * Minute) 1000000000 = 0 := by decide
  have h1 : int64 (3600 : Int) = 3600 := by decide
  have h2 : int64 (now.sec + 3600) = now.sec + 3600 := int64_of_range _ (by omega) hhi
  have h3 : int64 (now.sec + 3600 - unixToInternal) = now.sec + 3600 - unixToInternal :=
    int64_of_range _ (by omega) (by omega)
  have h4 : int64 (now.sec - unixToInternal) = now.sec - unixToInternal :=
    int64_of_range _ hlo (by omega)
  refine ⟨?_, by omega⟩
  unfold orgClaimAt Time.Add Time.Unix
  simp only [hd, hm, h1, h2, add_zero]
  rw [if_neg (by omega), if_neg (by omega)]
  simp only [h3, h4]
  congr 1
  omega

theorem canonical_Authorization : CanonicalMIMEHeaderKey "Authorization" = "Authorization" := by
  decide

/-- C7: the claim `Authorize` hands to the signer has organization id 0 and
expiry `time.Now().Add(60 * time.Minute).Unix()` for the clock reading `now` of
that call; when `now` lies inside the `int64` range of `time.Time` this expiry
is `now.Unix() + 3600`, strictly later than `now.Unix()`.  Every call takes its
own clock reading and builds its own claim.  When the signer gives a token,
the returned request has `Authorization` set to `Bearer ` followed by the token
and the error is `nil`; when the signer fails, its error is returned and the
request is unchanged. -/
theorem Authorize_signs_fresh_claim {κ : Type} (w : World) (d : Client) (req : Request)
    (s : State κ) :
    ∃ claim : OrgClaim,
      claim.OrgID = 0 ∧ claim.Exp = ((w.clock s.ticks).Add (60 * Minute)).Unix ∧
      ((0 ≤ (w.clock s.ticks).nsec ∧ (w.clock s.ticks).nsec < 1000000000) →
        -(2 : Int) ^ 63 ≤ (w.clock s.ticks).sec - unixToInternal →
        (w.clock s.ticks).sec + 3600 < (2 : Int) ^ 63 →
        claim.Exp = (w.clock s.ticks).Unix + 3600 ∧ (w.clock s.ticks).Unix < claim.Exp) ∧
      (d.Authorize w req s).2.2.signed = s.signed ++ [claim] ∧
      (d.Authorize w req s).2.2.ticks = s.ticks + 1 ∧
      (∀ tok, w.MarshallSignSerialize claim = .ok tok →
        (d.Authorize w req s).1 = none ∧
        (d.Authorize w req s).2.1 =
          { req with Header := req.Header.Set "Authorization" ("Bearer " ++ tok) } ∧
        (d.Authorize w req s).2.1.Header.values "Authorization" = ["Bearer " ++ tok]) ∧
      (∀ e, w.MarshallSignSerialize claim = .error e →
        (d.Authorize w req s).1 = some (GoError.ext e) ∧ (d.Authorize w req s).2.1 = req) := by
  refine ⟨orgClaimAt (w.clock s.ticks), rfl, rfl, ?_, ?_, ?_, ?_, ?_⟩
  · intro hnsec hlo hhi
    obtain ⟨hc, hlt⟩ := orgClaimAt_Exp (w.clock s.ticks) hnsec hlo hhi
    rw [hc]
    exact ⟨rfl, hlt⟩
  · cases hs : w.MarshallSignSerialize (orgClaimAt (w.clock s.ticks)) with
    | error e => rw [Authorize_of_sign_error w d req s e hs]; rfl
    | ok tok => rw [Authorize_of_sign_ok w d req s tok hs]; rfl
  · cases hs : w.MarshallSignSerialize (orgClaimAt (w.clock s.ticks)) with
    | error e => rw [Authorize_of_sign_error w d req s e hs]; rfl
    | ok tok => rw [Authorize_of_sign_ok w d req s tok hs]; rfl
  · intro tok hs
    rw [Authorize_of_sign_ok w d req s tok hs]
    refine ⟨rfl, rfl, ?_⟩
    simp only [Header.values_Set, canonical_Authorization, if_true]
  · intro e hs
    rw [Authorize_of_sign_error w d req s e hs]
    exact ⟨rfl, rfl⟩

/-- A clock reading of November 2023: the range conditions hold and the claim
expires 3600 seconds later. -/
theorem Authorize_signs_fresh_claim_witness :
    (0 ≤ ((demoWorld (demoResp 200 demoEntryDoc) (demoResp 201 demoKeyDoc) true).clock
        demoState.ticks).nsec ∧
      ((demoWorld (demoResp 200 demoEntryDoc) (demoResp 201 demoKeyDoc) true).clock
        demoState.ticks).nsec < 1000000000) ∧
    -(2 : Int) ^ 63 ≤
      ((demoWorld (demoResp 200 demoEntryDoc) (demoResp 201 demoKeyDoc) true).clock
        demoState.ticks).sec - unixToInternal ∧
    ((demoWorld (demoResp 200 demoEntryDoc) (demoResp 201 demoKeyDoc) true).clock
        demoState.ticks).sec + 3600 < (2 : Int) ^ 63 ∧
    ∃ claim : OrgClaim,
      claim.OrgID = 0 ∧
      claim.Exp = ((demoWorld (demoResp 200 demoEntryDoc) (demoResp 201 demoKeyDoc) true).clock
        demoState.ticks).Unix + 3600 ∧
      ((demoWorld (demoResp 200 demoEntryDoc) (demoResp 201 demoKeyDoc) true).clock
        demoState.ticks).Unix < claim.Exp ∧
      (demoClient.Authorize (demoWorld (demoResp 200 demoEntryDoc) (demoResp 201 demoKeyDoc) true)
        { Method := "GET", URL := "/", Header := [], Body := none } demoState).2.2.signed =
        demoState.signed ++ [claim] ∧
      claim.Exp = 1700003600 :=
  have h := Authorize_signs_fresh_claim
    (demoWorld (demoResp 200 demoEntryDoc) (demoResp 201 demoKeyDoc) true) demoClient
    { Method := "GET", URL := "/", Header := [], Body := none } demoState
  ⟨by decide, by decide, by decide,
    h.elim fun claim hc =>
      have hr := hc.2.2.1 (by decide) (by decide) (by decide)
      ⟨claim, hc.1, hr.1, hr.2, hc.2.2.2.1, hr.1.trans (by decide)⟩⟩

/-! ## The body of the `POST` -/

/-- C9: evaluation at names holding a double quote.  For the name `a"b` the body
is the text `{"Name":"a"b"}`, in which the string ends at the second quote of
the name.  For the four-character name `a\"b` the body is the text
`{"Name":"a\"b"}`, the JSON encoding of the three-character name `a"b`: every
decoder that reads this text as JSON yields a name other than the one
requested. -/
theorem nameBody_not_escaped :
    nameBody "a\"b" = "\x7b\"Name\":\"a\"b\"\x7d" ∧
    nameBody "a\\\"b" = "\x7b\"Name\":\"a\\\"b\"\x7d" ∧
    (∀ decode : String → Option String,
      decode "\x7b\"Name\":\"a\\\"b\"\x7d" = some "a\"b" →
      decode (nameBody "a\\\"b") ≠ some "a\\\"b") ∧
    ((demoClient.CreateAccessKey
        (demoWorld (demoResp 200 demoEntryDoc) (demoResp 201 demoKeyDoc) true)
        demoCodec "a\"b" demoState).2.sent.map (fun r => r.Body)) =
      [none, some "\x7b\"Name\":\"a\"b\"\x7d"] := by
  refine ⟨by decide, by decide, ?_, by decide⟩
  intro decode h
  have hb : nameBody "a\\\"b" = "\x7b\"Name\":\"a\\\"b\"\x7d" := by decide
  rw [hb, h]
  decide

/-! ## Headers of the request handed to the transport -/

theorem setHeaders_append (req : Request) (a b : List (String × String)) :
    setHeaders req (a ++ b) = setHeaders (setHeaders req a) b := by
  simp [setHeaders, List.foldl_append]

theorem setHeaders_values_of_ne (post : List (String × String)) (req : Request) (k : String)
    (h : ∀ p ∈ post, CanonicalMIMEHeaderKey p.1 ≠ k) :
    (setHeaders req post).Header.values k = req.Header.values k := by
  induction post generalizing req with
  | nil => rfl
  | cons nv rest ih =>
    have hnv : k ≠ CanonicalMIMEHeaderKey nv.1 := fun hk => h nv (List.mem_cons_self _ _) hk.symm
    have hrest : ∀ p ∈ rest, CanonicalMIMEHeaderKey p.1 ≠ k :=
      fun p hp => h p (List.mem_cons_of_mem _ hp)
    have step : setHeaders req (nv :: rest) =
        setHeaders { req with Header := req.Header.Set nv.1 nv.2 } rest := rfl
    rw [step, ih _ hrest]
    simp only [Header.values_Set, if_neg hnv]

theorem setHeaders_values_of_last (req : Request) (pre post : List (String × String))
    (n v : String)
    (h : ∀ p ∈ post, CanonicalMIMEHeaderKey p.1 ≠ CanonicalMIMEHeaderKey n) :
    (setHeaders req (pre ++ (n, v) :: post)).Header.values (CanonicalMIMEHeaderKey n) = [v] := by
  have step : setHeaders req (pre ++ (n, v) :: post) =
      setHeaders { setHeaders req pre with Header := (setHeaders req pre).Header.Set n v } post := by
    rw [setHeaders_append]
    rfl
  rw [step, setHeaders_values_of_ne post _ _ h]
  simp only [Header.values_Set, if_true]

theorem authRequest_values (method url : String) (headers : List (String × String))
    (body : Option String) (tok k : String) :
    (authRequest method url headers body tok).Header.values k =
      if k = "Authorization" then ["Bearer " ++ tok]
      else (setHeaders { Method := method, URL := url, Header := [], Body := body }
        headers).Header.values k := by
  simp only [authRequest, Header.values_Set, canonical_Authorization]

theorem Get_sent_of_sign_ok {α κ : Type} (w : World) (d : Client) (t : Target α κ) (url : String)
    (headers : List (String × String)) (p : Ptr) (result : α) (s : State κ) (u : URL) (tok : String)
    (hp : w.urlParse url = .ok u)
    (hs : w.MarshallSignSerialize (orgClaimAt (w.clock s.ticks)) = .ok tok) :
    (d.Get w t url headers p result s).2.2.sent =
      s.sent ++ [authRequest "GET" url headers none tok] := by
  rcases Get_sent w d t url headers p result s with h0 | ⟨tok1, hs1, h1⟩
  · exfalso
    revert h0
    refine Get_cases w d t url headers p result s (fun r => r.2.2.sent = s.sent → False)
      ?_ ?_ ?_ ?_ ?_ ?_ ?_
    · intro e he _
      rw [hp] at he
      cases he
    · intro u1 e _ he _
      rw [hs] at he
      cases he
    all_goals
      intros
      simp_all [State.logRequest, sentState, State.store]
  · rw [hs] at hs1
    cases hs1
    exact h1

theorem Post_sent {α κ : Type} (w : World) (d : Client) (t : Target α κ) (url : String)
    (headers : List (String × String)) (postbody : String) (p : Ptr) (result : α) (s : State κ) :
    (∀ e, w.MarshallSignSerialize (orgClaimAt (w.clock s.ticks)) = .error e →
      (d.Post w t url headers postbody p result s).2.2.sent = s.sent) ∧
    (∀ u tok, w.urlParse url = .ok u →
      w.MarshallSignSerialize (orgClaimAt (w.clock s.ticks)) = .ok tok →
      (d.Post w t url headers postbody p result s).2.2.sent =
        s.sent ++ [authRequest "POST" url headers (some postbody) tok]) := by
  refine Post_cases w d t url headers postbody p result s
    (fun r =>
      (∀ e, w.MarshallSignSerialize (orgClaimAt (w.clock s.ticks)) = .error e →
        r.2.2.sent = s.sent) ∧
      (∀ u tok, w.urlParse url = .ok u →
        w.MarshallSignSerialize (orgClaimAt (w.clock s.ticks)) = .ok tok →
        r.2.2.sent = s.sent ++ [authRequest "POST" url headers (some postbody) tok]))
    ?_ ?_ ?_ ?_ ?_ ?_ ?_
  all_goals
    intros
    simp_all [State.logRequest, sentState, authState, State.store]

theorem Get_sent_of_sign_error {α κ : Type} (w : World) (d : Client) (t : Target α κ)
    (url : String) (headers : List (String × String)) (p : Ptr) (result : α) (s : State κ) (e : String)
    (hs : w.MarshallSignSerialize (orgClaimAt (w.clock s.ticks)) = .error e) :
    (d.Get w t url headers p result s).2.2.sent = s.sent := by
  rcases Get_sent w d t url headers p result s with h0 | ⟨tok1, hs1, _⟩
  · exact h0
  · rw [hs] at hs1
    cases hs1

/-- C10: two caller entries whose names differ only in letter case.  `Header.Set`
stores both under `Accept`, so the request handed to the transport carries the
value of the entry visited last and the other value in no header at all,
whichever order the loop visits the map in. -/
theorem caller_header_collision :
    (demoClient.Get (demoWorld (demoResp 200 demoEntryDoc) (demoResp 201 demoKeyDoc) true)
        demoCodec.entry "/" [("accept", "x"), ("Accept", "y")] 0 EntryPoint.zero
        demoState).2.2.sent =
      [{ Method := "GET", URL := "/",
         Header := [("Authorization", ["Bearer jwt"]), ("Accept", ["y"])], Body := none }] ∧
    (∀ r ∈ (demoClient.Get
        (demoWorld (demoResp 200 demoEntryDoc) (demoResp 201 demoKeyDoc) true)
        demoCodec.entry "/" [("accept", "x"), ("Accept", "y")] 0 EntryPoint.zero
        demoState).2.2.sent, ∀ e ∈ r.Header, "x" ∉ e.2) ∧
    (demoClient.Get (demoWorld (demoResp 200 demoEntryDoc) (demoResp 201 demoKeyDoc) true)
        demoCodec.entry "/" [("Accept", "y"), ("accept", "x")] 0 EntryPoint.zero
        demoState).2.2.sent =
      [{ Method := "GET", URL := "/",
         Header := [("Authorization", ["Bearer jwt"]), ("Accept", ["x"])], Body := none }] ∧
    (∀ r ∈ (demoClient.Get
        (demoWorld (demoResp 200 demoEntryDoc) (demoResp 201 demoKeyDoc) true)
        demoCodec.entry "/" [("Accept", "y"), ("accept", "x")] 0 EntryPoint.zero
        demoState).2.2.sent, ∀ e ∈ r.Header, "y" ∉ e.2) := by
  decide

/-- C10, amended: when the URL parses and the signer gives the token `tok`, `Get`
and `Post` each hand one request to the transport; it carries `Authorization`
equal to `Bearer ` followed by `tok`, whatever the caller's map holds, and for
every caller entry whose canonical name is not `Authorization` and is not the
canonical name of an entry visited later by the merge loop, it carries the
caller's value under the canonical name.  When the signer fails, nothing is
handed to the transport. -/
theorem authorized_request_headers {α κ : Type} (w : World) (d : Client) (t : Target α κ)
    (url : String) (headers : List (String × String)) (postbody : String) (p : Ptr) (result : α)
    (s : State κ) (u : URL) (hp : w.urlParse url = .ok u) :
    (∀ tok, w.MarshallSignSerialize (orgClaimAt (w.clock s.ticks)) = .ok tok →
      ∃ rg rp,
        (d.Get w t url headers p result s).2.2.sent = s.sent ++ [rg] ∧
        (d.Post w t url headers postbody p result s).2.2.sent = s.sent ++ [rp] ∧
        rg.Header.values "Authorization" = ["Bearer " ++ tok] ∧
        rp.Header.values "Authorization" = ["Bearer " ++ tok] ∧
        ∀ pre n v post, headers = pre ++ (n, v) :: post →
          CanonicalMIMEHeaderKey n ≠ "Authorization" →
          (∀ p ∈ post, CanonicalMIMEHeaderKey p.1 ≠ CanonicalMIMEHeaderKey n) →
          rg.Header.values (CanonicalMIMEHeaderKey n) = [v] ∧
          rp.Header.values (CanonicalMIMEHeaderKey n) = [v]) ∧
    (∀ e, w.MarshallSignSerialize (orgClaimAt (w.clock s.ticks)) = .error e →
      (d.Get w t url headers p result s).2.2.sent = s.sent ∧
      (d.Post w t url headers postbody p result s).2.2.sent = s.sent) := by
  constructor
  · intro tok hs
    refine ⟨authRequest "GET" url headers none tok,
      authRequest "POST" url headers (some postbody) tok,
      Get_sent_of_sign_ok w d t url headers p result s u tok hp hs,
      (Post_sent w d t url headers postbody p result s).2 u tok hp hs, ?_, ?_, ?_⟩
    · rw [authRequest_values, if_pos rfl]
    · rw [authRequest_values, if_pos rfl]
    · intro pre n v post hh hn hpost
      simp only [authRequest_values, if_neg hn, hh]
      exact ⟨setHeaders_values_of_last _ pre post n v hpost,
        setHeaders_values_of_last _ pre post n v hpost⟩
  · intro e hs
    exact ⟨Get_sent_of_sign_error w d t url headers p result s e hs,
      (Post_sent w d t url headers postbody p result s).1 e hs⟩

/-- A caller map holding its own `authorization` entry and a trace header:
the first is overwritten by the bearer token, the second is sent. -/
theorem authorized_request_headers_witness :
    (demoWorld (demoResp 200 demoEntryDoc) (demoResp 201 demoKeyDoc) true).urlParse "/" =
      .ok { Scheme := "http", Host := "ds.example" } ∧
    ∃ rg rp,
      (demoClient.Get (demoWorld (demoResp 200 demoEntryDoc) (demoResp 201 demoKeyDoc) true)
        demoCodec.entry "/" [("authorization", "caller"), ("x-trace", "1")] 0 EntryPoint.zero
        demoState).2.2.sent = demoState.sent ++ [rg] ∧
      (demoClient.Post (demoWorld (demoResp 200 demoEntryDoc) (demoResp 201 demoKeyDoc) true)
        demoCodec.entry "/" [("authorization", "caller"), ("x-trace", "1")] "" 0 EntryPoint.zero
        demoState).2.2.sent = demoState.sent ++ [rp] ∧
      rg.Header.values "Authorization" = ["Bearer " ++ "jwt"] ∧
      rp.Header.values "Authorization" = ["Bearer " ++ "jwt"] ∧
      rg.Header.values (CanonicalMIMEHeaderKey "x-trace") = ["1"] ∧
      rp.Header.values (CanonicalMIMEHeaderKey "x-trace") = ["1"] :=
  have h := (authorized_request_headers
    (demoWorld (demoResp 200 demoEntryDoc) (demoResp 201 demoKeyDoc) true) demoClient
    demoCodec.entry "/" [("authorization", "caller"), ("x-trace", "1")] "" 0 EntryPoint.zero
    demoState { Scheme := "http", Host := "ds.example" } rfl).1 "jwt" rfl
  ⟨rfl, h.elim fun rg h1 => h1.elim fun rp h2 =>
    ⟨rg, rp, h2.1, h2.2.1, h2.2.2.1, h2.2.2.2.1,
      h2.2.2.2.2 [("authorization", "caller")] "x-trace" "1" [] rfl (by decide)
        (fun p hp => absurd hp (List.not_mem_nil p))⟩⟩

end DeviceServer
